import Mathlib

/-!
Shallow embedding of the BJData streaming decoder core (`src/decoder.c` of
stefanor/pybj) and proofs about it.

Bytes are modelled as `Nat` (values `0..255`), the fixed input as a
`List Nat`, and the decoder's `total_read` cursor as a `Nat` position into
that list.  Fallible C functions become functions returning
`Except DecErr α × Nat` (result, new `total_read`): on error the error
value carries the `total_read` at which `RAISE_DECODER_EXCEPTION` fired,
and the second component is the position the buffer was left at.

Loops that are not structurally bounded in the C code are given an
explicit fuel parameter (mirroring `Py_EnterRecursiveCall`'s depth bound);
fuel exhaustion is the distinguished error `DecErr.recursionExceeded`.
-/

/-- Marker byte constants.  Modelled from the spec: `markers.h` is not under
`src/`; the spec's data-model section fixes the marker alphabet as the ASCII
bytes `Z T F C S H i U I u l m L M h d D [ ] ... N` plus the structural
tokens, and `TYPE_NONE` is the out-of-band "no type" sentinel (byte 0). -/
def TYPE_NONE : Nat := 0

/-- Marker `Z` (null). -/
def TYPE_NULL : Nat := 0x5A

/-- Marker `N` (no-op). -/
def TYPE_NOOP : Nat := 0x4E

/-- Marker `T` (true). -/
def TYPE_BOOL_TRUE : Nat := 0x54

/-- Marker `F` (false). -/
def TYPE_BOOL_FALSE : Nat := 0x46

/-- Marker `i` (int8). -/
def TYPE_INT8 : Nat := 0x69

/-- Marker `U` (uint8). -/
def TYPE_UINT8 : Nat := 0x55

/-- Marker `I` (int16). -/
def TYPE_INT16 : Nat := 0x49

/-- Marker `u` (uint16). -/
def TYPE_UINT16 : Nat := 0x75

/-- Marker `l` (int32). -/
def TYPE_INT32 : Nat := 0x6C

/-- Marker `m` (uint32). -/
def TYPE_UINT32 : Nat := 0x6D

/-- Marker `L` (int64). -/
def TYPE_INT64 : Nat := 0x4C

/-- Marker `M` (uint64). -/
def TYPE_UINT64 : Nat := 0x4D

/-- Marker `h` (float16). -/
def TYPE_FLOAT16 : Nat := 0x68

/-- Marker `d` (float32). -/
def TYPE_FLOAT32 : Nat := 0x64

/-- Marker `D` (float64). -/
def TYPE_FLOAT64 : Nat := 0x44

/-- Marker `H` (high-precision decimal). -/
def TYPE_HIGH_PREC : Nat := 0x48

/-- Marker `C` (char). -/
def TYPE_CHAR : Nat := 0x43

/-- Marker `S` (string). -/
def TYPE_STRING : Nat := 0x53

/-- Marker `[` (array start). -/
def ARRAY_START : Nat := 0x5B

/-- Marker `]` (array end). -/
def ARRAY_END : Nat := 0x5D

/-- Marker `{` (object start). -/
def OBJECT_START : Nat := 0x7B

/-- Marker `}` (object end). -/
def OBJECT_END : Nat := 0x7D

/-- Marker `$` (container global type). -/
def CONTAINER_TYPE : Nat := 0x24

/-- Marker `#` (container count). -/
def CONTAINER_COUNT : Nat := 0x23

/-- `io.SEEK_CUR` constant passed to the user seek callable (`decoder.c`). -/
def IO_SEEK_CUR : Int := 1

/-- Decoder preferences (`_bjdata_decoder_prefs_t` in `decoder.h`).  The two
hook slots hold user callables in the C code; the decoder only tests them
against `NULL`, so they are modelled as booleans ("configured or not"). -/
structure DecoderPrefs where
  object_hook : Bool
  object_pairs_hook : Bool
  no_bytes : Bool
  intern_object_keys : Bool
  islittle : Bool
deriving Repr, DecidableEq

/-- Decoder errors.  Each constructor corresponds to one family of
`RAISE_DECODER_EXCEPTION` call sites in `decoder.c`; the `String` is the
item text interpolated into the message and the `Nat` is `buffer->total_read`
at the moment the exception was raised. -/
inductive DecErr where
  | insufficient (item : String) (offset : Nat)
  | insufficientPartial (item : String) (offset : Nat)
  | negativeLength (offset : Nat)
  | overflowLength (offset : Nat)
  | integerMarkerExpected (offset : Nat)
  | invalidContainerType (offset : Nat)
  | typedContainerWithoutCount (offset : Nat)
  | invalidMarker (offset : Nat)
  | utf8Decode (item : String) (offset : Nat)
  | failedObjectKey (item : String) (offset : Nat)
  | internalError (offset : Nat)
  | recursionExceeded (offset : Nat)
deriving Repr, DecidableEq

/-- Values produced by the decoder (the `DecoderValue` tagged union of the
spec).  Strings and keys are carried as their UTF-8 byte lists.  Floats are
carried as their endian-assembled bit patterns: the IEEE-754 conversion
routines (`_pyfuncs_ubj_PyFloat_Unpack4/8`) are external to the core.
`ndarray` is the value built by the external N-D array factory
(`PyArray_SimpleNew` + raw data); `pairs` is the ordered pair list handed to
the user's `object_pairs_hook`; `hookedMap` is the (opaque) result of the
user's `object_hook` applied to the given mapping. -/
inductive DValue where
  | null
  | bool (b : Bool)
  | int (n : Int)
  | float32 (bits : Nat)
  | float64 (bits : Nat)
  | char (b : Nat)
  | str (bs : List Nat)
  | highprec (bs : List Nat)
  | bytes (bs : List Nat)
  | ndarray (dims : List Int) (etype : Nat) (data : List Nat)
  | list (xs : List DValue)
  | map (entries : List (List Nat × DValue))
  | hookedMap (entries : List (List Nat × DValue))
  | pairs (ps : List (List Nat × DValue))

/-- Whether a decoded value is a float (used to compare decoder output
against the spec's claim that `h` yields a Float). -/
def DValue.isFloat : DValue → Bool
  | .float32 _ => true
  | .float64 _ => true
  | _ => false

/-- Whether a decoded value is a list. -/
def DValue.isList : DValue → Bool
  | .list _ => true
  | _ => false

deriving instance DecidableEq for Except

/-- Result of a decoding step: outcome plus new `total_read` position. -/
abbrev DecRes (α : Type) := Except DecErr α × Nat

/-- `read_func` for the Fixed backend as used by the value decoders
(`_decoder_buffer_read_fixed` wrapped in the `READ_..._OR_BAIL` macros):
reading 0 bytes succeeds with the empty chunk; a read that can be partially
served advances `total_read` by the served amount and then raises the
"partial input" error; a read at end of input raises "insufficient". -/
def readBytes (input : List Nat) (n : Nat) (item : String) (pos : Nat) : DecRes (List Nat) :=
  if n = 0 then (.ok [], pos)
  else if pos < input.length then
    let k := min n (input.length - pos)
    if k < n then (.error (.insufficientPartial item (pos + k)), pos + k)
    else (.ok ((input.drop pos).take n), pos + n)
  else (.error (.insufficient item pos), pos)

/-- `READ_CHAR_OR_BAIL`: read one byte. -/
def readByte (input : List Nat) (item : String) (pos : Nat) : DecRes Nat :=
  match readBytes input 1 item pos with
  | (.ok bs, p) => (.ok (bs.headD 0), p)
  | (.error e, p) => (.error e, p)

/-- Little-endian assembly of a byte list (least significant byte first).
This is what the `islittle` branches of the integer decoders compute when
the host stores multi-byte integers little-endian, which the C code
assumes when it writes raw bytes into the accumulator's memory. -/
def assembleLE (bs : List Nat) : Nat := bs.foldr (fun b acc => b + 256 * acc) 0

/-- Big-endian assembly of a byte list (`value = (value << 8) | *raw++`). -/
def assembleBE (bs : List Nat) : Nat := bs.foldl (fun acc b => 256 * acc + b) 0

/-- Endian-selected assembly. -/
def assemble (islittle : Bool) (bs : List Nat) : Nat :=
  if islittle then assembleLE bs else assembleBE bs

/-- Sign extension from the top bit of a `size`-byte value
(`value |= -(value & (1L << ((8 * size) - 1)))`). -/
def signExtend (size : Nat) (v : Nat) : Int :=
  if 2 ^ (8 * size - 1) ≤ v then (v : Int) - 2 ^ (8 * size) else (v : Int)

/-- `_decode_int8`: one byte, cast through `signed char`. -/
def decode_int8 (input : List Nat) (pos : Nat) : DecRes Int :=
  match readByte input "int8" pos with
  | (.ok b, p) => (.ok (if b < 128 then (b : Int) else (b : Int) - 256), p)
  | (.error e, p) => (.error e, p)

/-- `_decode_uint8`: one byte, zero-extended. -/
def decode_uint8 (input : List Nat) (pos : Nat) : DecRes Int :=
  match readByte input "uint8" pos with
  | (.ok b, p) => (.ok (b : Int), p)
  | (.error e, p) => (.error e, p)

/-- `_decode_uint16_32` (size is 2 or 4): read `size` bytes and assemble per
the `islittle` preference. -/
def decode_uint16_32 (islittle : Bool) (input : List Nat) (size : Nat) (pos : Nat) : DecRes Int :=
  match readBytes input size "uint16/32" pos with
  | (.ok raw, p) => (.ok (assemble islittle raw : Int), p)
  | (.error e, p) => (.error e, p)

/-- `_decode_int16_32` (size is 2 or 4): like the unsigned variant but
sign-extended from the encoded width's top bit. -/
def decode_int16_32 (islittle : Bool) (input : List Nat) (size : Nat) (pos : Nat) : DecRes Int :=
  match readBytes input size "int16/32" pos with
  | (.ok raw, p) => (.ok (signExtend size (assemble islittle raw)), p)
  | (.error e, p) => (.error e, p)

/-- `_decode_uint64`: read 8 bytes, assemble per endianness. -/
def decode_uint64 (islittle : Bool) (input : List Nat) (pos : Nat) : DecRes Int :=
  match readBytes input 8 "uint64" pos with
  | (.ok raw, p) => (.ok (assemble islittle raw : Int), p)
  | (.error e, p) => (.error e, p)

/-- `_decode_int64`: read 8 bytes, two's-complement interpretation. -/
def decode_int64 (islittle : Bool) (input : List Nat) (pos : Nat) : DecRes Int :=
  match readBytes input 8 "int64" pos with
  | (.ok raw, p) =>
    (.ok (if 2 ^ 63 ≤ assemble islittle raw
          then (assemble islittle raw : Int) - 2 ^ 64
          else (assemble islittle raw : Int)), p)
  | (.error e, p) => (.error e, p)

/-- Dispatch table of `_decode_int_non_negative`: which decoder each integer
marker selects; `none` for non-integer markers. -/
def decode_int_by_marker (islittle : Bool) (input : List Nat) (marker : Nat) (pos : Nat) :
    Option (DecRes Int) :=
  if marker = TYPE_UINT8 then some (decode_uint8 input pos)
  else if marker = TYPE_INT8 then some (decode_int8 input pos)
  else if marker = TYPE_UINT16 then some (decode_uint16_32 islittle input 2 pos)
  else if marker = TYPE_INT16 then some (decode_int16_32 islittle input 2 pos)
  else if marker = TYPE_UINT32 then some (decode_uint16_32 islittle input 4 pos)
  else if marker = TYPE_INT32 then some (decode_int16_32 islittle input 4 pos)
  else if marker = TYPE_UINT64 then some (decode_uint64 islittle input pos)
  else if marker = TYPE_INT64 then some (decode_int64 islittle input pos)
  else none

/-- `_decode_int_non_negative`: read (or take) a marker, decode the integer
it denotes, and reject values that do not fit a non-negative `long long`.
A value above `2^63 - 1` (only reachable via uint64) makes
`PyLong_AsLongLong` fail with an overflow, modelled as `overflowLength`;
a negative value raises "Negative count/length unexpected". -/
def decode_int_non_negative (islittle : Bool) (input : List Nat) (given : Option Nat)
    (pos : Nat) : DecRes Int :=
  match (match given with
         | none => readByte input "Length marker" pos
         | some m => (.ok m, pos) : DecRes Nat) with
  | (.error e, p) => (.error e, p)
  | (.ok marker, p) =>
    match decode_int_by_marker islittle input marker p with
    | none => (.error (.integerMarkerExpected p), p)
    | some (.error e, q) => (.error e, q)
    | some (.ok v, q) =>
      if 2 ^ 63 - 1 < v then (.error (.overflowLength q), q)
      else if v < 0 then (.error (.negativeLength q), q)
      else (.ok v, q)

/-- RFC 3629 UTF-8 validity (what `PyUnicode_FromStringAndSize` checks;
CPython's UTF-8 decoder is external to this core). -/
def utf8Cont (b : Nat) : Prop := 0x80 ≤ b ∧ b ≤ 0xBF

instance (b : Nat) : Decidable (utf8Cont b) := by
  unfold utf8Cont; infer_instance

/-- UTF-8 validity of a byte list. -/
def utf8Valid : List Nat → Bool
  | [] => true
  | b :: r =>
    if b ≤ 0x7F then utf8Valid r
    else if 0xC2 ≤ b ∧ b ≤ 0xDF then
      match r with
      | c1 :: r2 => if utf8Cont c1 then utf8Valid r2 else false
      | [] => false
    else if b = 0xE0 then
      match r with
      | c1 :: c2 :: r2 =>
        if (0xA0 ≤ c1 ∧ c1 ≤ 0xBF) ∧ utf8Cont c2 then utf8Valid r2 else false
      | _ => false
    else if (0xE1 ≤ b ∧ b ≤ 0xEC) ∨ b = 0xEE ∨ b = 0xEF then
      match r with
      | c1 :: c2 :: r2 => if utf8Cont c1 ∧ utf8Cont c2 then utf8Valid r2 else false
      | _ => false
    else if b = 0xED then
      match r with
      | c1 :: c2 :: r2 =>
        if (0x80 ≤ c1 ∧ c1 ≤ 0x9F) ∧ utf8Cont c2 then utf8Valid r2 else false
      | _ => false
    else if b = 0xF0 then
      match r with
      | c1 :: c2 :: c3 :: r2 =>
        if (0x90 ≤ c1 ∧ c1 ≤ 0xBF) ∧ utf8Cont c2 ∧ utf8Cont c3 then utf8Valid r2 else false
      | _ => false
    else if 0xF1 ≤ b ∧ b ≤ 0xF3 then
      match r with
      | c1 :: c2 :: c3 :: r2 =>
        if utf8Cont c1 ∧ utf8Cont c2 ∧ utf8Cont c3 then utf8Valid r2 else false
      | _ => false
    else if b = 0xF4 then
      match r with
      | c1 :: c2 :: c3 :: r2 =>
        if (0x80 ≤ c1 ∧ c1 ≤ 0x8F) ∧ utf8Cont c2 ∧ utf8Cont c3 then utf8Valid r2 else false
      | _ => false
    else false

/-- `_decode_float32`: read 4 bytes; the IEEE-754 value is produced by the
external `_pyfuncs_ubj_PyFloat_Unpack4` with explicit endian selection, so
the model carries the endian-assembled bit pattern. -/
def decode_float32 (islittle : Bool) (input : List Nat) (pos : Nat) : DecRes DValue :=
  match readBytes input 4 "float32" pos with
  | (.ok raw, p) => (.ok (.float32 (assemble islittle raw)), p)
  | (.error e, p) => (.error e, p)

/-- `_decode_float64`: read 8 bytes; conversion as in `decode_float32`. -/
def decode_float64 (islittle : Bool) (input : List Nat) (pos : Nat) : DecRes DValue :=
  match readBytes input 8 "float64" pos with
  | (.ok raw, p) => (.ok (.float64 (assemble islittle raw)), p)
  | (.error e, p) => (.error e, p)

/-- `_decode_char`: read 1 byte and present it as a 1-unit UTF-8 string
(a non-ASCII single byte fails UTF-8 decoding). -/
def decode_char (input : List Nat) (pos : Nat) : DecRes DValue :=
  match readByte input "char" pos with
  | (.ok b, p) =>
    if utf8Valid [b] then (.ok (.char b), p) else (.error (.utf8Decode "char" p), p)
  | (.error e, p) => (.error e, p)

/-- `_decode_string`: non-negative length, then that many UTF-8 bytes;
the empty string is built without reading when the length is 0. -/
def decode_string (islittle : Bool) (input : List Nat) (pos : Nat) : DecRes DValue :=
  match decode_int_non_negative islittle input none pos with
  | (.error e, p) => (.error e, p)
  | (.ok len, p) =>
    if 0 < len then
      match readBytes input len.toNat "string" p with
      | (.ok raw, q) =>
        if utf8Valid raw then (.ok (.str raw), q) else (.error (.utf8Decode "string" q), q)
      | (.error e, q) => (.error e, q)
    else (.ok (.str []), p)

/-- `_decode_high_prec`: length-prefixed UTF-8 decimal string; the value is
built by the external `decimal.Decimal` factory, modelled as carrying the
string. -/
def decode_high_prec (islittle : Bool) (input : List Nat) (pos : Nat) : DecRes DValue :=
  match decode_int_non_negative islittle input none pos with
  | (.error e, p) => (.error e, p)
  | (.ok len, p) =>
    match readBytes input len.toNat "highprec" p with
    | (.ok raw, q) =>
      if utf8Valid raw then (.ok (.highprec raw), q) else (.error (.utf8Decode "highprec" q), q)
    | (.error e, q) => (.error e, q)

/-- `_decode_object_key`: same as string but the length marker has already
been read by the caller; interning does not change the key's value. -/
def decode_object_key (islittle : Bool) (input : List Nat) (intern : Bool) (marker : Nat)
    (pos : Nat) : DecRes (List Nat) :=
  match decode_int_non_negative islittle input (some marker) pos with
  | (.error e, p) => (.error e, p)
  | (.ok len, p) =>
    match readBytes input len.toNat "string" p with
    | (.ok raw, q) =>
      if utf8Valid raw then (.ok raw, q) else (.error (.utf8Decode "object key" q), q)
    | (.error e, q) => (.error e, q)

/-- Container header parameters (`_container_params_t`); the `invalid` flag
is modelled by the surrounding `Except`. -/
structure ContainerParams where
  marker : Nat
  counting : Bool
  count : Int
  type : Nat
deriving Repr, DecidableEq

/-- Whether a byte is accepted after `$` as a container global type
(the switch at the top of `_get_container_params`, with `USE__BJDATA`). -/
def is_valid_container_type (t : Nat) : Bool :=
  t = TYPE_NULL ∨ t = TYPE_BOOL_TRUE ∨ t = TYPE_BOOL_FALSE ∨ t = TYPE_CHAR ∨
  t = TYPE_STRING ∨ t = TYPE_INT8 ∨ t = TYPE_UINT8 ∨ t = TYPE_INT16 ∨
  t = TYPE_INT32 ∨ t = TYPE_INT64 ∨ t = TYPE_FLOAT32 ∨ t = TYPE_FLOAT64 ∨
  t = TYPE_UINT16 ∨ t = TYPE_UINT32 ∨ t = TYPE_UINT64 ∨ t = TYPE_FLOAT16 ∨
  t = TYPE_HIGH_PREC ∨ t = ARRAY_START ∨ t = OBJECT_START

/-- First stage of `_get_container_params`: read one byte; on `$` read and
validate the global type and then read the following byte.  Returns the
global type (`TYPE_NONE` if absent) and the next marker. -/
def container_type_head (input : List Nat) (pos : Nat) : DecRes (Nat × Nat) :=
  match readByte input "container type, count or 1st key/value type" pos with
  | (.error e, p) => (.error e, p)
  | (.ok marker, p) =>
    if marker = CONTAINER_TYPE then
      match readByte input "container type" p with
      | (.error e, q) => (.error e, q)
      | (.ok t, q) =>
        if is_valid_container_type t then
          match readByte input "container count or 1st key/value type" q with
          | (.error e, r) => (.error e, r)
          | (.ok m, r) => (.ok (t, m), r)
        else (.error (.invalidContainerType q), q)
    else (.ok (TYPE_NONE, marker), p)

/-- Last stage of `_get_container_params` on the counted path (the lines
after the count is known): when `count > 0` and the container is a mapping
or has no global type, one extra byte is read ahead as the first
key/value marker; otherwise the next marker is the global type itself. -/
def container_count_tail (input : List Nat) (in_mapping : Bool) (ptype : Nat) (count : Int)
    (pos : Nat) : DecRes ContainerParams :=
  if 0 < count ∧ (in_mapping = true ∨ ptype = TYPE_NONE) then
    match readByte input "1st key/value type" pos with
    | (.error e, p) => (.error e, p)
    | (.ok m, p) => (.ok ⟨m, true, count, ptype⟩, p)
  else (.ok ⟨ptype, true, count, ptype⟩, pos)

/-- The branch of `_get_container_params` taken after `#` when the next
marker does not start an optimized N-D header (or the caller passed no
N-D out-parameters): decode the count with the marker already read. -/
def container_count_plain (islittle : Bool) (input : List Nat) (in_mapping : Bool)
    (ptype : Nat) (m2 : Nat) (pos : Nat) : DecRes ContainerParams :=
  match decode_int_non_negative islittle input (some m2) pos with
  | (.error e, p) => (.error e, p)
  | (.ok count, p) => container_count_tail input in_mapping ptype count p

/-- `_get_container_params` with `nd_ndim == NULL` (the object decoders and
the recursive call for the dimension vector): the optimized N-D branch is
disabled. -/
def get_container_params_noND (islittle : Bool) (input : List Nat) (in_mapping : Bool)
    (pos : Nat) : DecRes ContainerParams :=
  match container_type_head input pos with
  | (.error e, p) => (.error e, p)
  | (.ok (ptype, marker), p) =>
    if marker = CONTAINER_COUNT then
      match readByte input "container count marker or optimized ND-array dimension array marker" p with
      | (.error e, q) => (.error e, q)
      | (.ok m2, q) => container_count_plain islittle input in_mapping ptype m2 q
    else if ptype = TYPE_NONE then
      (.ok ⟨marker, false, 1, TYPE_NONE⟩, p)
    else (.error (.typedContainerWithoutCount p), p)

/-- The dimension loop of the optimized N-D header when the inner header is
counted: decode `k` integer lengths, each with the inner header's fixed
type as the given marker, accumulating the element-count product and the
dimension list. -/
def nd_dims_counted (islittle : Bool) (input : List Nat) (dtype : Nat) :
    Nat → Int → List Int → Nat → DecRes (Int × List Int)
  | 0, cnt, dims, pos => (.ok (cnt, dims), pos)
  | Nat.succ k, cnt, dims, pos =>
    match decode_int_non_negative islittle input (some dtype) pos with
    | (.error e, p) => (.error e, p)
    | (.ok len, p) => nd_dims_counted islittle input dtype k (cnt * len) (dims ++ [len]) p

/-- The dimension loop of the optimized N-D header when the inner header is
unsized: decode lengths with per-element markers until `]`. -/
def nd_dims_unsized (islittle : Bool) (input : List Nat) :
    Nat → Nat → Int → List Int → Nat → DecRes (Int × List Int)
  | 0, _, _, _, pos => (.error (.recursionExceeded pos), pos)
  | Nat.succ f, marker, cnt, dims, pos =>
    if marker = ARRAY_END then (.ok (cnt, dims), pos)
    else
      match decode_int_non_negative islittle input (some marker) pos with
      | (.error e, p) => (.error e, p)
      | (.ok len, p) =>
        match readByte input "Length marker" p with
        | (.error e, q) => (.error e, q)
        | (.ok m, q) => nd_dims_unsized islittle input f m (cnt * len) (dims ++ [len]) q

/-- `_get_container_params` with N-D out-parameters supplied (the array
decoder).  After `#`, a `[` starts the optimized N-D header: its dimension
vector has its own (plain) container header, parsed by the recursive call
with no N-D out-parameters; the element count becomes the product of the
dimensions.  Returns the parameters together with the dimension list
(empty when no N-D header was parsed, matching `ndims == 0`). -/
def get_container_params_nd (islittle : Bool) (input : List Nat) (in_mapping : Bool)
    (fuel : Nat) (pos : Nat) : DecRes (ContainerParams × List Int) :=
  match container_type_head input pos with
  | (.error e, p) => (.error e, p)
  | (.ok (ptype, marker), p) =>
    if marker = CONTAINER_COUNT then
      match readByte input "container count marker or optimized ND-array dimension array marker" p with
      | (.error e, q) => (.error e, q)
      | (.ok m2, q) =>
        if m2 = ARRAY_START then
          match get_container_params_noND islittle input false q with
          | (.error e, r) => (.error e, r)
          | (.ok inner, r) =>
            match (if inner.counting
                   then nd_dims_counted islittle input inner.type inner.count.toNat 1 [] r
                   else nd_dims_unsized islittle input fuel inner.marker 1 [] r) with
            | (.error e, s) => (.error e, s)
            | (.ok (cnt, dims), s) =>
              match container_count_tail input in_mapping ptype cnt s with
              | (.error e, u) => (.error e, u)
              | (.ok params, u) => (.ok (params, dims), u)
        else
          match container_count_plain islittle input in_mapping ptype m2 q with
          | (.error e, r) => (.error e, r)
          | (.ok params, r) => (.ok (params, []), r)
    else if ptype = TYPE_NONE then
      (.ok (⟨marker, false, 1, TYPE_NONE⟩, []), p)
    else (.error (.typedContainerWithoutCount p), p)

/-- `_is_no_data_type`. -/
def is_no_data_type (t : Nat) : Bool :=
  t = TYPE_NULL ∨ t = TYPE_BOOL_TRUE ∨ t = TYPE_BOOL_FALSE

/-- `_is_fixed_len_type`. -/
def is_fixed_len_type (t : Nat) : Bool :=
  t = TYPE_INT8 ∨ t = TYPE_UINT8 ∨ t = TYPE_INT16 ∨ t = TYPE_UINT16 ∨
  t = TYPE_INT32 ∨ t = TYPE_UINT32 ∨ t = TYPE_INT64 ∨ t = TYPE_UINT64 ∨
  t = TYPE_CHAR ∨ t = TYPE_FLOAT16 ∨ t = TYPE_FLOAT32 ∨ t = TYPE_FLOAT64

/-- `_get_type_info`: byte width of a fixed-width element type (`none` for
the internal-error default branch). -/
def get_type_info (t : Nat) : Option Nat :=
  if t = TYPE_FLOAT16 then some 2
  else if t = TYPE_FLOAT32 then some 4
  else if t = TYPE_FLOAT64 then some 8
  else if t = TYPE_INT8 then some 1
  else if t = TYPE_UINT8 then some 1
  else if t = TYPE_INT16 then some 2
  else if t = TYPE_UINT16 then some 2
  else if t = TYPE_INT32 then some 4
  else if t = TYPE_UINT32 then some 4
  else if t = TYPE_INT64 then some 8
  else if t = TYPE_UINT64 then some 8
  else if t = TYPE_CHAR then some 1
  else none

/-- `_no_data_type`: the singleton value implied by a no-data marker. -/
def no_data_value (t : Nat) : DValue :=
  if t = TYPE_NULL then .null
  else if t = TYPE_BOOL_TRUE then .bool true
  else .bool false

/-- `PyDict_SetItem` on an insertion-ordered association list: overwriting
an existing key keeps its position, a new key is appended. -/
def dictSet (d : List (List Nat × DValue)) (k : List Nat) (v : DValue) :
    List (List Nat × DValue) :=
  if d.any (fun pr => pr.1 == k) then
    d.map (fun pr => if pr.1 == k then (k, v) else pr)
  else d ++ [(k, v)]

/-- Lookup in the association-list model of a dict. -/
def dictGet (d : List (List Nat × DValue)) (k : List Nat) : Option DValue :=
  (d.find? (fun pr => pr.1 == k)).map (fun pr => pr.2)

/-- The value of the LAST pair with key `k` in an ordered pair list (the
tail is consulted first, so a later binding shadows an earlier one). -/
def lastBind : List (List Nat × DValue) → List Nat → Option DValue
  | [], _ => none
  | (a, w) :: t, k =>
    match lastBind t k with
    | some v => some v
    | none => if a == k then some w else none

/-- Fold a pair list into a dict with `dictSet` (one `PyDict_SetItem` per
pair, in order). -/
def dictOfPairs (l : List (List Nat × DValue)) : List (List Nat × DValue) :=
  l.foldl (fun d kv => dictSet d kv.1 kv.2) []

/-- The element loop of `_decode_array` for a counted container that took
none of the fast paths: a `NOOP` marker is replaced by the next byte
without touching the count; otherwise one value is decoded with the
current marker, appended, the count decremented, and (only when elements
remain and there is no global type) the next element marker is read. -/
def array_counted_loop (input : List Nat) (dv : Option Nat → Nat → DecRes DValue)
    (ptype : Nat) : Nat → Nat → Int → List DValue → Nat → DecRes (List DValue)
  | 0, _, _, _, pos => (.error (.recursionExceeded pos), pos)
  | Nat.succ f, marker, count, acc, pos =>
    if 0 < count then
      if marker = TYPE_NOOP then
        match readByte input "array value type marker (sized, after no-op)" pos with
        | (.error e, p) => (.error e, p)
        | (.ok m, p) => array_counted_loop input dv ptype f m count acc p
      else
        match dv (some marker) pos with
        | (.error e, p) => (.error e, p)
        | (.ok v, p) =>
          if 0 < count - 1 ∧ ptype = TYPE_NONE then
            match readByte input "array value type marker (sized)" p with
            | (.error e, q) => (.error e, q)
            | (.ok m, q) => array_counted_loop input dv ptype f m (count - 1) (acc ++ [v]) q
          else array_counted_loop input dv ptype f marker (count - 1) (acc ++ [v]) p
    else (.ok acc, pos)

/-- The element loop of `_decode_array` for an unsized container: stop at
`]`, skip `NOOP`s, and read the next element marker only when there is no
global type. -/
def array_unsized_loop (input : List Nat) (dv : Option Nat → Nat → DecRes DValue)
    (ptype : Nat) : Nat → Nat → List DValue → Nat → DecRes (List DValue)
  | 0, _, _, pos => (.error (.recursionExceeded pos), pos)
  | Nat.succ f, marker, acc, pos =>
    if marker = ARRAY_END then (.ok acc, pos)
    else if marker = TYPE_NOOP then
      match readByte input "array value type marker (after no-op)" pos with
      | (.error e, p) => (.error e, p)
      | (.ok m, p) => array_unsized_loop input dv ptype f m acc p
    else
      match dv (some marker) pos with
      | (.error e, p) => (.error e, p)
      | (.ok v, p) =>
        if ptype = TYPE_NONE then
          match readByte input "array value type marker" p with
          | (.error e, q) => (.error e, q)
          | (.ok m, q) => array_unsized_loop input dv ptype f m (acc ++ [v]) q
        else array_unsized_loop input dv ptype f marker (acc ++ [v]) p

/-- `_decode_array`: parse the container header (with the N-D
out-parameters), then in order try the byte-array fast path, the N-D
packed-array fast path, the no-data fill, the 1-D packed fast path, and
otherwise run the counted or unsized element loop. -/
def decode_array (prefs : DecoderPrefs) (input : List Nat)
    (dv : Option Nat → Nat → DecRes DValue) (fuel : Nat) (pos : Nat) : DecRes DValue :=
  match get_container_params_nd prefs.islittle input false fuel pos with
  | (.error e, p) => (.error e, p)
  | (.ok (params, dims), p) =>
    if params.counting then
      if params.type = TYPE_UINT8 ∧ prefs.no_bytes = false ∧ dims.length = 0 then
        match readBytes input params.count.toNat "bytes array" p with
        | (.error e, q) => (.error e, q)
        | (.ok raw, q) => (.ok (.bytes raw), q)
      else if dims.length ≠ 0 ∧ params.type ≠ TYPE_NONE then
        match get_type_info params.type with
        | none => (.error (.internalError p), p)
        | some bytelen =>
          match readBytes input (bytelen * params.count.toNat) "ND array" p with
          | (.error e, q) => (.error e, q)
          | (.ok raw, q) => (.ok (.ndarray dims params.type raw), q)
      else if is_no_data_type params.type then
        (.ok (.list (List.replicate params.count.toNat (no_data_value params.type))), p)
      else if is_fixed_len_type params.type ∧ 0 < params.count then
        match get_type_info params.type with
        | none => (.error (.internalError p), p)
        | some bytelen =>
          match readBytes input (bytelen * params.count.toNat) "1D packed array" p with
          | (.error e, q) => (.error e, q)
          | (.ok raw, q) => (.ok (.ndarray [params.count] params.type raw), q)
      else
        match array_counted_loop input dv params.type fuel params.marker params.count [] p with
        | (.error e, q) => (.error e, q)
        | (.ok xs, q) => (.ok (.list xs), q)
    else
      match array_unsized_loop input dv params.type fuel params.marker [] p with
      | (.error e, q) => (.error e, q)
      | (.ok xs, q) => (.ok (.list xs), q)

/-- The keys-only loop of `_decode_object` for a counted container with a
no-data global type: each iteration decodes a key (with the marker already
in hand — a failure is re-raised as "Failed to decode object key") and
binds it to the singleton value. -/
def object_nodata_loop (islittle : Bool) (input : List Nat) (intern : Bool) (val : DValue) :
    Nat → Nat → Int → List (List Nat × DValue) → Nat → DecRes (List (List Nat × DValue))
  | 0, _, _, _, pos => (.error (.recursionExceeded pos), pos)
  | Nat.succ f, marker, count, d, pos =>
    if 0 < count then
      match decode_object_key islittle input intern marker pos with
      | (.error _, p) => (.error (.failedObjectKey "sized, no data" p), p)
      | (.ok key, p) =>
        let d2 := dictSet d key val
        if 0 < count - 1 then
          match readByte input "object key length" p with
          | (.error e, q) => (.error e, q)
          | (.ok m, q) => object_nodata_loop islittle input intern val f m (count - 1) d2 q
        else object_nodata_loop islittle input intern val f marker (count - 1) d2 p
    else (.ok d, pos)

/-- The general key/value loop of `_decode_object` (one loop for both the
counted and unsized cases): run while elements remain and (for unsized
containers) the marker is not `}`; skip `NOOP`s; decode a key then a value
(with the global type as given marker when fixed); `PyDict_SetItem`;
decrement the count only when counting; read the next key-length marker
while the loop will continue. -/
def object_loop (islittle : Bool) (input : List Nat) (dv : Option Nat → Nat → DecRes DValue)
    (intern : Bool) (counting : Bool) (ptype : Nat) :
    Nat → Nat → Int → List (List Nat × DValue) → Nat → DecRes (List (List Nat × DValue))
  | 0, _, _, _, pos => (.error (.recursionExceeded pos), pos)
  | Nat.succ f, marker, count, d, pos =>
    if 0 < count ∧ (counting = true ∨ marker ≠ OBJECT_END) then
      if marker = TYPE_NOOP then
        match readByte input "object key length" pos with
        | (.error e, p) => (.error e, p)
        | (.ok m, p) => object_loop islittle input dv intern counting ptype f m count d p
      else
        match decode_object_key islittle input intern marker pos with
        | (.error _, p) => (.error (.failedObjectKey "sized/unsized" p), p)
        | (.ok key, p) =>
          match dv (if ptype = TYPE_NONE then none else some ptype) p with
          | (.error e, q) => (.error e, q)
          | (.ok v, q) =>
            let d2 := dictSet d key v
            let c2 := if counting then count - 1 else count
            if 0 < c2 then
              match readByte input "object key length" q with
              | (.error e, r) => (.error e, r)
              | (.ok m, r) => object_loop islittle input dv intern counting ptype f m c2 d2 r
            else object_loop islittle input dv intern counting ptype f marker c2 d2 q
    else (.ok d, pos)

/-- `_decode_object`: parse the header in mapping mode; counted containers
with a no-data global type take the keys-only loop, everything else the
general loop; afterwards an `object_hook`, when configured, replaces the
mapping with its (external) result. -/
def decode_object (prefs : DecoderPrefs) (input : List Nat)
    (dv : Option Nat → Nat → DecRes DValue) (fuel : Nat) (pos : Nat) : DecRes DValue :=
  match get_container_params_noND prefs.islittle input true pos with
  | (.error e, p) => (.error e, p)
  | (.ok params, p) =>
    match (if params.counting ∧ is_no_data_type params.type then
             object_nodata_loop prefs.islittle input prefs.intern_object_keys
               (no_data_value params.type) fuel params.marker params.count [] p
           else
             object_loop prefs.islittle input dv prefs.intern_object_keys
               params.counting params.type fuel params.marker params.count [] p) with
    | (.error e, q) => (.error e, q)
    | (.ok d, q) =>
      if prefs.object_hook then (.ok (.hookedMap d), q) else (.ok (.map d), q)

/-- The keys-only loop of `_decode_object_with_pairs_hook` for a counted
container with a no-data global type. -/
def pairs_nodata_loop (islittle : Bool) (input : List Nat) (intern : Bool) (val : DValue) :
    Nat → Nat → Int → List (List Nat × DValue) → Nat → DecRes (List (List Nat × DValue))
  | 0, _, _, _, pos => (.error (.recursionExceeded pos), pos)
  | Nat.succ f, marker, count, acc, pos =>
    if 0 < count then
      match decode_object_key islittle input intern marker pos with
      | (.error _, p) => (.error (.failedObjectKey "sized, no data" p), p)
      | (.ok key, p) =>
        let acc2 := acc ++ [(key, val)]
        if 0 < count - 1 then
          match readByte input "object key length" p with
          | (.error e, q) => (.error e, q)
          | (.ok m, q) => pairs_nodata_loop islittle input intern val f m (count - 1) acc2 q
        else pairs_nodata_loop islittle input intern val f marker (count - 1) acc2 p
    else (.ok acc, pos)

/-- The counted key/value loop of `_decode_object_with_pairs_hook`. -/
def pairs_counted_loop (islittle : Bool) (input : List Nat)
    (dv : Option Nat → Nat → DecRes DValue) (intern : Bool) (ptype : Nat) :
    Nat → Nat → Int → List (List Nat × DValue) → Nat → DecRes (List (List Nat × DValue))
  | 0, _, _, _, pos => (.error (.recursionExceeded pos), pos)
  | Nat.succ f, marker, count, acc, pos =>
    if 0 < count then
      if marker = TYPE_NOOP then
        match readByte input "object key length (sized, after no-op)" pos with
        | (.error e, p) => (.error e, p)
        | (.ok m, p) => pairs_counted_loop islittle input dv intern ptype f m count acc p
      else
        match decode_object_key islittle input intern marker pos with
        | (.error _, p) => (.error (.failedObjectKey "sized" p), p)
        | (.ok key, p) =>
          match dv (if ptype = TYPE_NONE then none else some ptype) p with
          | (.error e, q) => (.error e, q)
          | (.ok v, q) =>
            let acc2 := acc ++ [(key, v)]
            if 0 < count - 1 then
              match readByte input "object key length (sized)" q with
              | (.error e, r) => (.error e, r)
              | (.ok m, r) => pairs_counted_loop islittle input dv intern ptype f m (count - 1) acc2 r
            else pairs_counted_loop islittle input dv intern ptype f marker (count - 1) acc2 q
    else (.ok acc, pos)

/-- The unsized key/value loop of `_decode_object_with_pairs_hook`. -/
def pairs_unsized_loop (islittle : Bool) (input : List Nat)
    (dv : Option Nat → Nat → DecRes DValue) (intern : Bool) (ptype : Nat) :
    Nat → Nat → List (List Nat × DValue) → Nat → DecRes (List (List Nat × DValue))
  | 0, _, _, pos => (.error (.recursionExceeded pos), pos)
  | Nat.succ f, marker, acc, pos =>
    if marker = OBJECT_END then (.ok acc, pos)
    else if marker = TYPE_NOOP then
      match readByte input "object key length (after no-op)" pos with
      | (.error e, p) => (.error e, p)
      | (.ok m, p) => pairs_unsized_loop islittle input dv intern ptype f m acc p
    else
      match decode_object_key islittle input intern marker pos with
      | (.error _, p) => (.error (.failedObjectKey "unsized" p), p)
      | (.ok key, p) =>
        match dv (if ptype = TYPE_NONE then none else some ptype) p with
        | (.error e, q) => (.error e, q)
        | (.ok v, q) =>
          match readByte input "object key length" q with
          | (.error e, r) => (.error e, r)
          | (.ok m, r) => pairs_unsized_loop islittle input dv intern ptype f m (acc ++ [(key, v)]) r

/-- `_decode_object_with_pairs_hook`: like `decode_object` but collecting
the ordered (key, value) pairs; the resulting list is what is passed to
the user's `object_pairs_hook`. -/
def decode_object_with_pairs_hook (prefs : DecoderPrefs) (input : List Nat)
    (dv : Option Nat → Nat → DecRes DValue) (fuel : Nat) (pos : Nat) : DecRes DValue :=
  match get_container_params_noND prefs.islittle input true pos with
  | (.error e, p) => (.error e, p)
  | (.ok params, p) =>
    match (if params.counting then
             if is_no_data_type params.type then
               pairs_nodata_loop prefs.islittle input prefs.intern_object_keys
                 (no_data_value params.type) fuel params.marker params.count [] p
             else
               pairs_counted_loop prefs.islittle input dv prefs.intern_object_keys
                 params.type fuel params.marker params.count [] p
           else
             pairs_unsized_loop prefs.islittle input dv prefs.intern_object_keys
               params.type fuel params.marker [] p) with
    | (.error e, q) => (.error e, q)
    | (.ok l, q) => (.ok (.pairs l), q)

/-- Lift an integer decode result into a `DValue`. -/
def int_result (r : DecRes Int) : DecRes DValue :=
  match r with
  | (.ok v, p) => (.ok (.int v), p)
  | (.error e, p) => (.error e, p)

/-- `_bjdata_decode_value`: read a marker when none is given and dispatch.
The fuel parameter plays the role of `Py_EnterRecursiveCall`'s remaining
depth; nested containers recurse with one unit less. -/
def decode_value (prefs : DecoderPrefs) (input : List Nat) :
    Nat → Option Nat → Nat → DecRes DValue
  | 0, _, pos => (.error (.recursionExceeded pos), pos)
  | Nat.succ f, given, pos =>
    match (match given with
           | none => readByte input "Type marker" pos
           | some m => (.ok m, pos) : DecRes Nat) with
    | (.error e, p) => (.error e, p)
    | (.ok marker, p) =>
      if marker = TYPE_NULL then (.ok .null, p)
      else if marker = TYPE_BOOL_TRUE then (.ok (.bool true), p)
      else if marker = TYPE_BOOL_FALSE then (.ok (.bool false), p)
      else if marker = TYPE_CHAR then decode_char input p
      else if marker = TYPE_STRING then decode_string prefs.islittle input p
      else if marker = TYPE_INT8 then int_result (decode_int8 input p)
      else if marker = TYPE_INT16 then int_result (decode_int16_32 prefs.islittle input 2 p)
      else if marker = TYPE_INT32 then int_result (decode_int16_32 prefs.islittle input 4 p)
      else if marker = TYPE_INT64 then int_result (decode_int64 prefs.islittle input p)
      else if marker = TYPE_UINT8 then int_result (decode_uint8 input p)
      else if marker = TYPE_FLOAT16 ∨ marker = TYPE_UINT16 then
        int_result (decode_uint16_32 prefs.islittle input 2 p)
      else if marker = TYPE_UINT32 then int_result (decode_uint16_32 prefs.islittle input 4 p)
      else if marker = TYPE_UINT64 then int_result (decode_uint64 prefs.islittle input p)
      else if marker = TYPE_FLOAT32 then decode_float32 prefs.islittle input p
      else if marker = TYPE_FLOAT64 then decode_float64 prefs.islittle input p
      else if marker = TYPE_HIGH_PREC then decode_high_prec prefs.islittle input p
      else if marker = ARRAY_START then
        decode_array prefs input (fun gm q => decode_value prefs input f gm q) f p
      else if marker = OBJECT_START then
        if prefs.object_pairs_hook then
          decode_object_with_pairs_hook prefs input
            (fun gm q => decode_value prefs input f gm q) f p
        else decode_object prefs input (fun gm q => decode_value prefs input f gm q) f p
      else (.error (.invalidMarker p), p)

/-- State of a Fixed-backend decoder buffer: the bytes of the single view
plus `total_read` (which doubles as the position). -/
structure FixedBuf where
  view : List Nat
  total_read : Nat
deriving Repr, DecidableEq

/-- `_decoder_buffer_read_fixed`: serve up to `len` bytes from the view at
`total_read`, advancing it; `none` with out-length 0 signals end of input
(or a zero-length request). -/
def decoder_buffer_read_fixed (b : FixedBuf) (len : Nat) :
    Option (List Nat) × Nat × FixedBuf :=
  if len = 0 then (none, len, b)
  else if b.total_read < b.view.length then
    let l := min len (b.view.length - b.total_read)
    (some ((b.view.drop b.total_read).take l), l, { b with total_read := b.total_read + l })
  else (none, 0, b)

/-- State of a Callable-backend decoder buffer: the currently held view (if
any) and `total_read`. -/
structure CallBuf where
  view : List Nat
  view_set : Bool
  total_read : Nat
deriving Repr, DecidableEq

/-- `_decoder_buffer_read_callable`: release any held view, invoke the user
callable (modelled by its result: `none` when the callable raised), and
serve its whole return; a zero-length return signals end of input. -/
def decoder_buffer_read_callable (b : CallBuf) (len : Nat) (chunk : Option (List Nat)) :
    Option (List Nat) × Nat × CallBuf :=
  if len = 0 then (none, len, b)
  else
    let b1 : CallBuf := { b with view := [], view_set := false }
    match chunk with
    | none => (none, 1, b1)
    | some cs =>
      let b2 : CallBuf := { b1 with view := cs, view_set := true }
      if cs.length = 0 then (none, 0, b2)
      else (some cs, cs.length, { b2 with total_read := b2.total_read + cs.length })

/-- State of a SeekableCallable-backend decoder buffer: the held view, the
position `pos` within it, `total_read`, and whether a scratch destination
is held. -/
structure BufBuf where
  view : List Nat
  view_set : Bool
  pos : Nat
  total_read : Nat
  tmp_dst : Bool
deriving Repr, DecidableEq

/-- `_decoder_buffer_read_buffered`: if the request fits in the remaining
view, serve a direct sub-slice; otherwise copy the remainder out, release
the view, call the user callable (`chunk`; `none` when it raised), and
stitch the remainder with the front of the new view.  `total_read` is
advanced once for the remainder taken from the old view and once for the
bytes taken from the new one. -/
def decoder_buffer_read_buffered (b : BufBuf) (len : Nat) (chunk : Option (List Nat)) :
    Option (List Nat) × Nat × BufBuf :=
  if len = 0 then (none, len, b)
  else
    let b0 : BufBuf := { b with tmp_dst := false }
    if b0.view_set = false ∨ b0.view.length - b0.pos < len then
      let remaining_old := if b0.view_set then b0.view.length - b0.pos else 0
      let carry := (b0.view.drop b0.pos).take remaining_old
      let b1 : BufBuf :=
        if b0.view_set then
          let bb := if 0 < remaining_old
                    then { b0 with pos := b0.view.length,
                                   total_read := b0.total_read + remaining_old }
                    else b0
          { bb with view := [], view_set := false, pos := 0 }
        else b0
      match chunk with
      | none => (none, 1, b1)
      | some cs =>
        let b2 : BufBuf := { b1 with view := cs, view_set := true }
        if remaining_old = 0 ∧ cs.length = 0 then (none, 0, b2)
        else
          let len2 := min len (cs.length + remaining_old)
          let newpos := len2 - remaining_old
          (some (carry ++ cs.take newpos), len2,
           { b2 with pos := newpos, total_read := b2.total_read + newpos })
    else
      (some ((b0.view.drop b0.pos).take len), len,
       { b0 with pos := b0.pos + len, total_read := b0.total_read + len })

/-- Observable events of `_bjdata_decoder_buffer_free`, in order. -/
inductive FreeEvent where
  | seekCall (offset : Int) (whence : Int)
  | releaseView
deriving Repr, DecidableEq

/-- The part of the buffer state that teardown inspects. -/
structure TeardownState where
  view_set : Bool
  has_seek : Bool
  view_len : Int
  pos : Int
deriving Repr, DecidableEq

/-- `_bjdata_decoder_buffer_free`: when a view is held and the buffer is in
seekable mode with unread look-ahead (`view.len > pos`), the current
exception (if any) is fetched, the user seek callable is invoked with
`(pos - view.len, SEEK_CUR)` — its failure modelled by `seek_err` — and
then either the prior exception is restored (clobbering any seek failure)
or, with no prior exception, a seek failure makes the free call report
failure.  The view is released afterwards.  Returns the event list, the
exception left in flight, and the `failed` flag. -/
def bjdata_decoder_buffer_free (s : TeardownState) (prior : Option String)
    (seek_err : Option String) : List FreeEvent × Option String × Bool :=
  if s.view_set then
    if s.has_seek ∧ s.pos < s.view_len then
      let fetched := prior
      let outcome :=
        if fetched.isSome then (fetched, false)
        else (seek_err, seek_err.isSome)
      ([FreeEvent.seekCall (s.pos - s.view_len) IO_SEEK_CUR, FreeEvent.releaseView],
       outcome.1, outcome.2)
    else ([FreeEvent.releaseView], prior, false)
  else ([], prior, false)

/-! Helper lemmas about list indexing and the fixed-backend read. -/

theorem get_lt_length {input : List Nat} {pos b : Nat} (h : input.get? pos = some b) :
    pos < input.length := by
  by_contra hge
  rw [List.get?_eq_none.mpr (by omega)] at h
  exact Option.noConfusion h

theorem get_drop_cons {input : List Nat} {pos b : Nat} (h : input.get? pos = some b) :
    input.drop pos = b :: input.drop (pos + 1) := by
  induction input generalizing pos with
  | nil => simp at h
  | cons a t ih =>
    cases pos with
    | zero => simp_all
    | succ p =>
      simp only [List.get?] at h
      simpa using ih h

theorem readBytes_ok (input : List Nat) (n : Nat) (s : String) (pos : Nat)
    (h : pos + n ≤ input.length) :
    readBytes input n s pos = (.ok ((input.drop pos).take n), pos + n) := by
  unfold readBytes
  by_cases hn : n = 0
  · subst hn; simp
  · have hpos : pos < input.length := by omega
    have hmin : min n (input.length - pos) = n := by omega
    simp [hn, hpos, hmin]

theorem readByte_ok {input : List Nat} {pos b : Nat} (s : String)
    (h : input.get? pos = some b) :
    readByte input s pos = (.ok b, pos + 1) := by
  have hlt := get_lt_length h
  unfold readByte
  rw [readBytes_ok input 1 s pos (by omega)]
  rw [get_drop_cons h]
  simp

theorem readBytes_two {input : List Nat} {pos b0 b1 : Nat} (s : String)
    (h0 : input.get? pos = some b0) (h1 : input.get? (pos + 1) = some b1) :
    readBytes input 2 s pos = (.ok [b0, b1], pos + 2) := by
  have hlt := get_lt_length h1
  rw [readBytes_ok input 2 s pos (by omega)]
  rw [get_drop_cons h0, get_drop_cons h1]
  simp

/-- C9: across every read operation of every backend (Fixed, Callable,
SeekableCallable), on success and on failure, the buffer's `total_read`
field never decreases. -/
theorem c9_total_read_monotone :
    (∀ (b : FixedBuf) (len : Nat),
       b.total_read ≤ (decoder_buffer_read_fixed b len).2.2.total_read) ∧
    (∀ (b : CallBuf) (len : Nat) (chunk : Option (List Nat)),
       b.total_read ≤ (decoder_buffer_read_callable b len chunk).2.2.total_read) ∧
    (∀ (b : BufBuf) (len : Nat) (chunk : Option (List Nat)),
       b.total_read ≤ (decoder_buffer_read_buffered b len chunk).2.2.total_read) := by
  refine ⟨fun b len => ?_, fun b len chunk => ?_, fun b len chunk => ?_⟩
  · unfold decoder_buffer_read_fixed
    split
    · exact le_refl _
    split
    · simp
    · exact le_refl _
  · unfold decoder_buffer_read_callable
    split
    · exact le_refl _
    cases chunk with
    | none => exact le_refl _
    | some cs =>
      dsimp only
      split
      · exact le_refl _
      · simp
  · unfold decoder_buffer_read_buffered
    dsimp only
    repeat' split
    all_goals simp
    all_goals omega

/-- C8: on teardown of a SeekableCallable buffer with unread look-ahead
bytes (`pos < view.len`), the user seek callable is called exactly once
with relative offset `pos - view.len` (whence `SEEK_CUR`) before the view
is released; a prior in-flight error is preserved even if the seek call
fails, while a seek failure with no prior error surfaces as the failure. -/
theorem c8_teardown_seek (s : TeardownState) (prior seek_err : Option String)
    (hview : s.view_set = true) (hseek : s.has_seek = true) (hla : s.pos < s.view_len) :
    bjdata_decoder_buffer_free s prior seek_err =
      ([FreeEvent.seekCall (s.pos - s.view_len) IO_SEEK_CUR, FreeEvent.releaseView],
       (if prior.isSome then prior else seek_err),
       (prior.isNone && seek_err.isSome)) := by
  unfold bjdata_decoder_buffer_free
  rw [if_pos hview, if_pos ⟨hseek, hla⟩]
  cases prior <;> simp

/-- Closed witness for `c8_teardown_seek`: a held view of length 10 with 3
bytes consumed, a prior error in flight and a failing seek — the seek is
still issued with offset `-7`, and the prior error wins. -/
theorem c8_teardown_seek_witness :
    bjdata_decoder_buffer_free ⟨true, true, 10, 3⟩ (some "prior") (some "seekfail") =
      ([FreeEvent.seekCall (-7) IO_SEEK_CUR, FreeEvent.releaseView], some "prior", false) :=
  c8_teardown_seek ⟨true, true, 10, 3⟩ (some "prior") (some "seekfail") rfl rfl (by norm_num)

/-- C1 (amended): for every input whose next marker is the float16 marker
`h` in a scalar position, decoding reads exactly 2 payload bytes and
returns an Integer holding the raw 16-bit pattern assembled under the
`islittle` preference (the uint16 decoder is reused; there is no IEEE-754
half-precision conversion). -/
theorem c1_float16_scalar_reads_uint16 (prefs : DecoderPrefs) (input : List Nat)
    (f pos b0 b1 : Nat)
    (h0 : input.get? pos = some TYPE_FLOAT16)
    (h1 : input.get? (pos + 1) = some b0)
    (h2 : input.get? (pos + 2) = some b1) :
    decode_value prefs input (f + 1) none pos =
      (.ok (.int (if prefs.islittle then b0 + 256 * b1 else 256 * b0 + b1)), pos + 3) := by
  rw [show f + 1 = Nat.succ f from rfl, decode_value]
  rw [readByte_ok "Type marker" h0]
  have h2s : input.get? (pos + 1 + 1) = some b1 := by
    rw [show pos + 1 + 1 = pos + 2 by omega]; exact h2
  rw [show pos + 3 = pos + 1 + 2 by omega]
  simp only [TYPE_FLOAT16, TYPE_NULL, TYPE_BOOL_TRUE, TYPE_BOOL_FALSE, TYPE_CHAR,
    TYPE_STRING, TYPE_INT8, TYPE_INT16, TYPE_INT32, TYPE_INT64, TYPE_UINT8, TYPE_UINT16]
  norm_num
  unfold decode_uint16_32
  rw [readBytes_two "uint16/32" h1 h2s]
  cases hl : prefs.islittle <;>
    simp [int_result, assemble, assembleLE, assembleBE, hl]

/-- Witness for `c1_float16_scalar_reads_uint16`: `h 00 3C` under
`islittle` decodes to the Integer 15360 (= 0x3C00), consuming 3 bytes. -/
theorem c1_float16_witness :
    decode_value ⟨false, false, false, false, true⟩ [0x68, 0x00, 0x3C] 5 none 0 =
      (.ok (.int 15360), 3) := by
  have h := c1_float16_scalar_reads_uint16 ⟨false, false, false, false, true⟩
    [0x68, 0x00, 0x3C] 4 0 0x00 0x3C rfl rfl rfl
  simpa using h

/-- Counterexample to C1: on input `h 00 3C` (a scalar float16 position)
the decoder returns the Integer 15360, not a Float obtained by IEEE-754
half-precision conversion (half 0x3C00 would be the Float 1.0). -/
theorem c1_counterexample :
    decode_value ⟨false, false, false, false, true⟩ [0x68, 0x00, 0x3C] 5 none 0 =
      (.ok (.int 15360), 3) ∧ DValue.isFloat (.int 15360) = false :=
  ⟨rfl, rfl⟩

/-- C5 (amended): whenever a length or count is decoded (all such sites go
through `_decode_int_non_negative`) and the underlying integer decode
yields a negative value, decoding fails fatally with the negative-length
error at the `total_read` reached after consuming the integer; in
particular the input bytes `S i FF` fail with the error reported at byte
offset 3 (after the marker and payload bytes are consumed), not 2. -/
theorem c5_negative_length (islittle : Bool) (input : List Nat) (m pos : Nat)
    (v : Int) (q : Nat)
    (hdec : decode_int_by_marker islittle input m pos = some (.ok v, q))
    (hneg : v < 0) :
    decode_int_non_negative islittle input (some m) pos =
      (.error (.negativeLength q), q) ∧
    decode_value ⟨false, false, false, false, false⟩ [0x53, 0x69, 0xFF] 5 none 0 =
      (.error (.negativeLength 3), 3) := by
  refine ⟨?_, rfl⟩
  unfold decode_int_non_negative
  dsimp only
  rw [hdec]
  dsimp only
  rw [if_neg (by omega), if_pos hneg]

/-- Witness for `c5_negative_length`: the int8 payload `FF` given marker
`i` decodes to -1, so the length decode fails with `negativeLength` at
offset 1. -/
theorem c5_negative_length_witness :
    decode_int_non_negative false [0xFF] (some 0x69) 0 =
      (.error (.negativeLength 1), 1) :=
  (c5_negative_length false [0xFF] 0x69 0 (-1) 1
    (by unfold decode_int_by_marker decode_int8 readByte readBytes
        norm_num [TYPE_UINT8, TYPE_INT8])
    (by norm_num)).1

/-- Counterexample to C5 as stated: on input `S i FF` the decoder raises
the negative-length error with byte offset 3 attached (the value of
`total_read` when the error is raised), not offset 2. -/
theorem c5_counterexample :
    decode_value ⟨false, false, false, false, false⟩ [0x53, 0x69, 0xFF] 5 none 0 =
      (.error (.negativeLength 3), 3) ∧ (3 : Nat) ≠ 2 :=
  ⟨rfl, by norm_num⟩

/-- A byte accepted as a container global type is never the `TYPE_NONE`
sentinel. -/
theorem valid_container_type_ne_none {t : Nat} (h : is_valid_container_type t = true) :
    t ≠ TYPE_NONE := by
  simp only [is_valid_container_type, TYPE_NULL, TYPE_BOOL_TRUE, TYPE_BOOL_FALSE, TYPE_CHAR,
    TYPE_STRING, TYPE_INT8, TYPE_UINT8, TYPE_INT16, TYPE_INT32, TYPE_INT64, TYPE_FLOAT32,
    TYPE_FLOAT64, TYPE_UINT16, TYPE_UINT32, TYPE_UINT64, TYPE_FLOAT16, TYPE_HIGH_PREC,
    ARRAY_START, OBJECT_START, decide_eq_true_eq] at h
  unfold TYPE_NONE
  omega

/-- `container_type_head` on a `$`-prefixed header with a valid type byte:
returns the type and the following marker, consuming three bytes. -/
theorem container_type_head_typed {input : List Nat} {pos t m : Nat}
    (h0 : input.get? pos = some CONTAINER_TYPE)
    (ht : input.get? (pos + 1) = some t) (hv : is_valid_container_type t = true)
    (hm : input.get? (pos + 2) = some m) :
    container_type_head input pos = (.ok (t, m), pos + 3) := by
  have hm2 : input.get? (pos + 1 + 1) = some m := by
    rw [show pos + 1 + 1 = pos + 2 by omega]; exact hm
  unfold container_type_head
  rw [readByte_ok _ h0]
  dsimp only
  rw [if_pos rfl, readByte_ok _ ht]
  dsimp only
  rw [if_pos hv, readByte_ok _ hm2]

/-- `container_type_head` without a `$` prefix: no global type, one byte
consumed. -/
theorem container_type_head_untyped {input : List Nat} {pos m : Nat}
    (h0 : input.get? pos = some m) (hne : m ≠ CONTAINER_TYPE) :
    container_type_head input pos = (.ok (TYPE_NONE, m), pos + 1) := by
  unfold container_type_head
  rw [readByte_ok _ h0]
  dsimp only
  rw [if_neg hne]

/-- C4: a `$` global-type prefix not followed by a `#` count is the fatal
"Container type without count" error, in both header-parsing modes;
whereas a `#` count without a `$` type is accepted (`counting` set, no
global type) and parsing continues. -/
theorem c4_type_count_requirements (islittle : Bool) (input : List Nat)
    (in_mapping : Bool) (fuel pos : Nat) :
    (∀ t m, input.get? pos = some CONTAINER_TYPE →
       input.get? (pos + 1) = some t → is_valid_container_type t = true →
       input.get? (pos + 2) = some m → m ≠ CONTAINER_COUNT →
       get_container_params_noND islittle input in_mapping pos =
         (.error (.typedContainerWithoutCount (pos + 3)), pos + 3) ∧
       get_container_params_nd islittle input in_mapping fuel pos =
         (.error (.typedContainerWithoutCount (pos + 3)), pos + 3)) ∧
    (∀ m2 c q m3, input.get? pos = some CONTAINER_COUNT →
       input.get? (pos + 1) = some m2 → m2 ≠ ARRAY_START →
       decode_int_non_negative islittle input (some m2) (pos + 2) = (.ok c, q) →
       input.get? q = some m3 →
       get_container_params_noND islittle input in_mapping pos =
         (.ok ⟨if 0 < c then m3 else TYPE_NONE, true, c, TYPE_NONE⟩,
          if 0 < c then q + 1 else q) ∧
       get_container_params_nd islittle input in_mapping fuel pos =
         (.ok (⟨if 0 < c then m3 else TYPE_NONE, true, c, TYPE_NONE⟩, []),
          if 0 < c then q + 1 else q)) := by
  constructor
  · intro t m h0 ht hv hm hne
    have hh := container_type_head_typed h0 ht hv hm
    have htn := valid_container_type_ne_none hv
    constructor
    · unfold get_container_params_noND
      rw [hh]
      dsimp only
      rw [if_neg hne, if_neg htn]
    · unfold get_container_params_nd
      rw [hh]
      dsimp only
      rw [if_neg hne, if_neg htn]
  · intro m2 c q m3 h0 h1 hnd hc hq
    have hh := container_type_head_untyped h0 (by unfold CONTAINER_COUNT CONTAINER_TYPE; omega)
    have hc2 : decode_int_non_negative islittle input (some m2) (pos + 1 + 1) = (.ok c, q) := by
      rw [show pos + 1 + 1 = pos + 2 by omega]; exact hc
    have htail : container_count_tail input in_mapping TYPE_NONE c q =
        (.ok ⟨if 0 < c then m3 else TYPE_NONE, true, c, TYPE_NONE⟩,
         if 0 < c then q + 1 else q) := by
      unfold container_count_tail
      by_cases hcc : 0 < c
      · rw [if_pos ⟨hcc, Or.inr rfl⟩, readByte_ok _ hq]
        dsimp only
        rw [if_pos hcc, if_pos hcc]
      · rw [if_neg (by tauto), if_neg hcc, if_neg hcc]
    constructor
    · unfold get_container_params_noND
      rw [hh]
      dsimp only
      rw [if_pos rfl, readByte_ok _ h1]
      dsimp only
      unfold container_count_plain
      rw [hc2]
      dsimp only
      exact htail
    · unfold get_container_params_nd
      rw [hh]
      dsimp only
      rw [if_pos rfl, readByte_ok _ h1]
      dsimp only
      rw [if_neg hnd]
      unfold container_count_plain
      rw [hc2]
      dsimp only
      rw [htail]

/-- Closed witness for `c4_type_count_requirements`: header `$ U U` fails
with "Container type without count" at offset 3, and header `# U 02 i`
is accepted with count 2 and first-element marker `i` at offset 4. -/
theorem c4_type_count_witness :
    (get_container_params_noND false [0x24, 0x55, 0x55] false 0 =
       (.error (.typedContainerWithoutCount 3), 3)) ∧
    (get_container_params_noND false [0x23, 0x55, 2, 0x69] false 0 =
       (.ok ⟨0x69, true, 2, TYPE_NONE⟩, 4)) := by
  constructor
  · exact ((c4_type_count_requirements false [0x24, 0x55, 0x55] false 7 0).1
      0x55 0x55 rfl rfl (by decide) rfl (by decide)).1
  · have h := ((c4_type_count_requirements false [0x23, 0x55, 2, 0x69] false 7 0).2
      0x55 2 3 0x69 rfl rfl (by decide) (by decide) rfl).1
    simpa using h

/-- C6: in container header parsing, after the count is decoded: if
`count > 0` and either the container is a mapping or it has no global
type, exactly one more byte is read and becomes the returned
first-element marker; otherwise the returned marker equals the
already-known global type and no extra byte is read.  (Stated for the
plain-count path, in both header-parsing modes.) -/
theorem c6_count_prefetch (islittle : Bool) (input : List Nat) (in_mapping : Bool)
    (fuel pos p1 q : Nat) (t m2 m3 : Nat) (c : Int)
    (hhead : container_type_head input pos = (.ok (t, CONTAINER_COUNT), p1))
    (hm2 : input.get? p1 = some m2) (hnd : m2 ≠ ARRAY_START)
    (hcount : decode_int_non_negative islittle input (some m2) (p1 + 1) = (.ok c, q))
    (hq : input.get? q = some m3) :
    get_container_params_noND islittle input in_mapping pos =
      (.ok ⟨if 0 < c ∧ (in_mapping = true ∨ t = TYPE_NONE) then m3 else t, true, c, t⟩,
       if 0 < c ∧ (in_mapping = true ∨ t = TYPE_NONE) then q + 1 else q) ∧
    get_container_params_nd islittle input in_mapping fuel pos =
      (.ok (⟨if 0 < c ∧ (in_mapping = true ∨ t = TYPE_NONE) then m3 else t, true, c, t⟩, []),
       if 0 < c ∧ (in_mapping = true ∨ t = TYPE_NONE) then q + 1 else q) := by
  have htail : container_count_tail input in_mapping t c q =
      (.ok ⟨if 0 < c ∧ (in_mapping = true ∨ t = TYPE_NONE) then m3 else t, true, c, t⟩,
       if 0 < c ∧ (in_mapping = true ∨ t = TYPE_NONE) then q + 1 else q) := by
    unfold container_count_tail
    by_cases hcc : 0 < c ∧ (in_mapping = true ∨ t = TYPE_NONE)
    · rw [if_pos hcc, readByte_ok _ hq]
      dsimp only
      rw [if_pos hcc, if_pos hcc]
    · rw [if_neg hcc, if_neg hcc, if_neg hcc]
  constructor
  · unfold get_container_params_noND
    rw [hhead]
    dsimp only
    rw [if_pos rfl, readByte_ok _ hm2]
    dsimp only
    unfold container_count_plain
    rw [hcount]
    dsimp only
    exact htail
  · unfold get_container_params_nd
    rw [hhead]
    dsimp only
    rw [if_pos rfl, readByte_ok _ hm2]
    dsimp only
    rw [if_neg hnd]
    unfold container_count_plain
    rw [hcount]
    dsimp only
    rw [htail]

/-- Closed witness for `c6_count_prefetch`: header `$ Z # U 02` followed by
byte `U`.  In mapping mode (count 2 > 0) the byte after the count is
prefetched as the first key marker (position 6); in array mode with the
fixed type `Z` the returned marker is the global type and the position
stays at 5. -/
theorem c6_count_prefetch_witness :
    (get_container_params_noND false [0x24, 0x5A, 0x23, 0x55, 2, 0x55] true 0 =
       (.ok ⟨0x55, true, 2, 0x5A⟩, 6)) ∧
    (get_container_params_noND false [0x24, 0x5A, 0x23, 0x55, 2, 0x55] false 0 =
       (.ok ⟨0x5A, true, 2, 0x5A⟩, 5)) := by
  constructor
  · have h := (c6_count_prefetch false [0x24, 0x5A, 0x23, 0x55, 2, 0x55] true 7 0 3 5
      0x5A 0x55 0x55 2
      (container_type_head_typed rfl rfl (by decide) rfl)
      rfl (by decide) (by decide) rfl).1
    simpa using h
  · have h := (c6_count_prefetch false [0x24, 0x5A, 0x23, 0x55, 2, 0x55] false 7 0 3 5
      0x5A 0x55 0x55 2
      (container_type_head_typed rfl rfl (by decide) rfl)
      rfl (by decide) (by decide) rfl).1
    simpa using h

/-- A fixed-width element type is never a no-data type. -/
theorem fixed_len_not_no_data {t : Nat} (h : is_fixed_len_type t = true) :
    is_no_data_type t = false := by
  simp only [is_fixed_len_type, TYPE_INT8, TYPE_UINT8, TYPE_INT16, TYPE_UINT16, TYPE_INT32,
    TYPE_UINT32, TYPE_INT64, TYPE_UINT64, TYPE_CHAR, TYPE_FLOAT16, TYPE_FLOAT32, TYPE_FLOAT64,
    decide_eq_true_eq] at h
  simp only [is_no_data_type, TYPE_NULL, TYPE_BOOL_TRUE, TYPE_BOOL_FALSE,
    decide_eq_false_iff_not]
  omega

/-- C2 (amended): for every counted array with global type u8 and no N-D
header: when `no_bytes` is unset, decoding returns a Bytes value holding
the count payload bytes; when `no_bytes` is set and the count is positive,
decoding returns a 1-D packed array (NDArray) of shape `[count]` with
element type u8 over the same payload bytes (not a List); when `no_bytes`
is set and the count is zero, decoding returns an empty List. -/
theorem c2_u8_counted_array (prefs : DecoderPrefs) (input : List Nat)
    (dv : Option Nat → Nat → DecRes DValue) (fuel pos p : Nat)
    (params : ContainerParams)
    (hhead : get_container_params_nd prefs.islittle input false fuel pos =
      (.ok (params, []), p))
    (htype : params.type = TYPE_UINT8) (hcnt : params.counting = true)
    (havail : p + params.count.toNat ≤ input.length) :
    (prefs.no_bytes = false →
      decode_array prefs input dv fuel pos =
        (.ok (.bytes ((input.drop p).take params.count.toNat)), p + params.count.toNat)) ∧
    (prefs.no_bytes = true → 0 < params.count →
      decode_array prefs input dv fuel pos =
        (.ok (.ndarray [params.count] TYPE_UINT8 ((input.drop p).take params.count.toNat)),
         p + params.count.toNat)) ∧
    (prefs.no_bytes = true → params.count = 0 → 0 < fuel →
      decode_array prefs input dv fuel pos = (.ok (.list []), p)) := by
  refine ⟨fun hb => ?_, fun hb hpos => ?_, fun hb hzero hfuel => ?_⟩
  · unfold decode_array
    rw [hhead]
    dsimp only
    rw [if_pos hcnt, if_pos ⟨htype, hb, rfl⟩, readBytes_ok input _ _ p havail]
  · unfold decode_array
    rw [hhead]
    dsimp only
    rw [if_pos hcnt, if_neg (by simp [hb]), if_neg (by simp),
        if_neg (by rw [htype]; simp [is_no_data_type, TYPE_UINT8, TYPE_NULL, TYPE_BOOL_TRUE,
          TYPE_BOOL_FALSE]),
        if_pos ⟨by rw [htype]; decide, hpos⟩, htype,
        show get_type_info TYPE_UINT8 = some 1 from rfl]
    dsimp only
    rw [show 1 * params.count.toNat = params.count.toNat by omega,
        readBytes_ok input _ _ p havail]
  · obtain ⟨g, rfl⟩ : ∃ g, fuel = g + 1 := ⟨fuel - 1, by omega⟩
    unfold decode_array
    rw [hhead]
    dsimp only
    rw [if_pos hcnt, if_neg (by simp [hb]), if_neg (by simp),
        if_neg (by rw [htype]; simp [is_no_data_type, TYPE_UINT8, TYPE_NULL, TYPE_BOOL_TRUE,
          TYPE_BOOL_FALSE]),
        if_neg (by rw [hzero]; simp)]
    unfold array_counted_loop
    rw [hzero]
    simp

/-- Closed witness for `c2_u8_counted_array`: `[ $U #U 03 01 02 03` yields
`Bytes [1,2,3]` with `no_bytes` unset and the packed 1-D u8 array with
`no_bytes` set; `[ $U #U 00` with `no_bytes` set yields the empty list. -/
theorem c2_u8_counted_array_witness :
    (decode_array ⟨false, false, false, false, false⟩ [0x24, 0x55, 0x23, 0x55, 3, 1, 2, 3]
       (fun _ q => (.error (.invalidMarker q), q)) 7 0 =
       (.ok (.bytes [1, 2, 3]), 8)) ∧
    (decode_array ⟨false, false, true, false, false⟩ [0x24, 0x55, 0x23, 0x55, 3, 1, 2, 3]
       (fun _ q => (.error (.invalidMarker q), q)) 7 0 =
       (.ok (.ndarray [3] TYPE_UINT8 [1, 2, 3]), 8)) ∧
    (decode_array ⟨false, false, true, false, false⟩ [0x24, 0x55, 0x23, 0x55, 0]
       (fun _ q => (.error (.invalidMarker q), q)) 7 0 = (.ok (.list []), 5)) := by
  refine ⟨?_, ?_, ?_⟩
  · have h := (c2_u8_counted_array ⟨false, false, false, false, false⟩
      [0x24, 0x55, 0x23, 0x55, 3, 1, 2, 3] (fun _ q => (.error (.invalidMarker q), q)) 7 0 5
      ⟨0x55, true, 3, 0x55⟩ (by decide) rfl rfl (by decide)).1 rfl
    simpa using h
  · have h := (c2_u8_counted_array ⟨false, false, true, false, false⟩
      [0x24, 0x55, 0x23, 0x55, 3, 1, 2, 3] (fun _ q => (.error (.invalidMarker q), q)) 7 0 5
      ⟨0x55, true, 3, 0x55⟩ (by decide) rfl rfl (by decide)).2.1 rfl (by norm_num)
    simpa using h
  · exact (c2_u8_counted_array ⟨false, false, true, false, false⟩
      [0x24, 0x55, 0x23, 0x55, 0] (fun _ q => (.error (.invalidMarker q), q)) 7 0 5
      ⟨0x55, true, 0, 0x55⟩ (by decide) rfl rfl (by decide)).2.2 rfl rfl (by norm_num)

/-- Counterexample to C2 as stated: with `no_bytes` set, the counted u8
array `[ $U #U 03 01 02 03` decodes to a packed 1-D NDArray, not to a
List of integers. -/
theorem c2_counterexample :
    decode_value ⟨false, false, true, false, false⟩ [0x5B, 0x24, 0x55, 0x23, 0x55, 3, 1, 2, 3]
      5 none 0 = (.ok (.ndarray [3] 0x55 [1, 2, 3]), 9) ∧
    DValue.isList (.ndarray [3] 0x55 [1, 2, 3]) = false :=
  ⟨rfl, rfl⟩

/-- C10: for a counted array with count 0 and no N-D header: with global
type u8 and `no_bytes` unset the result is an empty Bytes value with no
payload bytes read; for any fixed-width global type not taking the byte
fast path (the packed fast path requires count > 0) the result is an
empty List, not an empty packed array. -/
theorem c10_zero_count_counted_array (prefs : DecoderPrefs) (input : List Nat)
    (dv : Option Nat → Nat → DecRes DValue) (fuel pos p : Nat)
    (params : ContainerParams)
    (hhead : get_container_params_nd prefs.islittle input false fuel pos =
      (.ok (params, []), p))
    (hcnt : params.counting = true) (hzero : params.count = 0) (hfuel : 0 < fuel) :
    (params.type = TYPE_UINT8 → prefs.no_bytes = false →
      decode_array prefs input dv fuel pos = (.ok (.bytes []), p)) ∧
    (is_fixed_len_type params.type = true →
      (params.type = TYPE_UINT8 → prefs.no_bytes = true) →
      decode_array prefs input dv fuel pos = (.ok (.list []), p)) := by
  constructor
  · intro htype hb
    unfold decode_array
    rw [hhead]
    dsimp only
    rw [if_pos hcnt, if_pos ⟨htype, hb, rfl⟩, hzero]
    rw [show ((0 : Int)).toNat = 0 from rfl]
    simp [readBytes]
  · intro hfix hbytes
    obtain ⟨g, rfl⟩ : ∃ g, fuel = g + 1 := ⟨fuel - 1, by omega⟩
    unfold decode_array
    rw [hhead]
    dsimp only
    have hb1 : ¬(params.type = TYPE_UINT8 ∧ prefs.no_bytes = false ∧
        (List.length ([] : List Int)) = 0) := by
      rintro ⟨h1, h2, _⟩
      rw [hbytes h1] at h2
      exact Bool.noConfusion h2
    rw [if_pos hcnt, if_neg hb1, if_neg (by simp),
        if_neg (by rw [fixed_len_not_no_data hfix]; simp),
        if_neg (by rw [hzero]; simp)]
    unfold array_counted_loop
    rw [hzero]
    simp

/-- Closed witness for `c10_zero_count_counted_array`: `[ $U #U 00` gives
the empty Bytes with `no_bytes` unset, and `[ $I #U 00` gives the empty
List. -/
theorem c10_zero_count_witness :
    (decode_array ⟨false, false, false, false, false⟩ [0x24, 0x55, 0x23, 0x55, 0]
       (fun _ q => (.error (.invalidMarker q), q)) 7 0 = (.ok (.bytes []), 5)) ∧
    (decode_array ⟨false, false, false, false, false⟩ [0x24, 0x49, 0x23, 0x55, 0]
       (fun _ q => (.error (.invalidMarker q), q)) 7 0 = (.ok (.list []), 5)) := by
  constructor
  · exact (c10_zero_count_counted_array ⟨false, false, false, false, false⟩
      [0x24, 0x55, 0x23, 0x55, 0] (fun _ q => (.error (.invalidMarker q), q)) 7 0 5
      ⟨0x55, true, 0, 0x55⟩ (by decide) rfl rfl (by norm_num)).1 rfl rfl
  · exact (c10_zero_count_counted_array ⟨false, false, false, false, false⟩
      [0x24, 0x49, 0x23, 0x55, 0] (fun _ q => (.error (.invalidMarker q), q)) 7 0 5
      ⟨0x49, true, 0, 0x49⟩ (by decide) rfl rfl (by norm_num)).2 (by decide)
      (fun h => absurd h (by decide))

/-- Skipping a run of `k` NOOP bytes in the counted array loop reads `k+1`
markers and continues with the count and accumulator unchanged. -/
theorem array_counted_loop_noop_skip (input : List Nat)
    (dv : Option Nat → Nat → DecRes DValue) (ptype : Nat) :
    ∀ (k f pos m : Nat) (count : Int) (acc : List DValue),
      (∀ i, i < k → input.get? (pos + i) = some TYPE_NOOP) →
      input.get? (pos + k) = some m → 0 < count →
      array_counted_loop input dv ptype (k + f + 1) TYPE_NOOP count acc pos =
        array_counted_loop input dv ptype f m count acc (pos + k + 1) := by
  intro k
  induction k with
  | zero =>
    intro f pos m count acc _ hm hcount
    have hm0 : input.get? pos = some m := by simpa using hm
    rw [show 0 + f + 1 = Nat.succ f by omega]
    rw [array_counted_loop]
    rw [if_pos hcount, if_pos rfl, readByte_ok _ hm0]
  | succ k ih =>
    intro f pos m count acc hrun hm hcount
    have h0 : input.get? pos = some TYPE_NOOP := by simpa using hrun 0 (by omega)
    rw [show k + 1 + f + 1 = Nat.succ (k + f + 1) by omega]
    rw [array_counted_loop]
    rw [if_pos hcount, if_pos rfl, readByte_ok _ h0]
    dsimp only
    rw [ih f (pos + 1) m count acc
      (fun i hi => by
        have := hrun (i + 1) (by omega)
        rwa [show pos + (i + 1) = pos + 1 + i by omega] at this)
      (by rw [show pos + 1 + k = pos + (k + 1) by omega]; exact hm) hcount]
    rw [show pos + 1 + k + 1 = pos + (k + 1) + 1 by omega]

/-- Skipping a run of `k` NOOP bytes in the general object loop, count and
dict unchanged. -/
theorem object_loop_noop_skip (islittle : Bool) (input : List Nat)
    (dv : Option Nat → Nat → DecRes DValue) (intern counting : Bool) (ptype : Nat) :
    ∀ (k f pos m : Nat) (count : Int) (d : List (List Nat × DValue)),
      (∀ i, i < k → input.get? (pos + i) = some TYPE_NOOP) →
      input.get? (pos + k) = some m → 0 < count →
      object_loop islittle input dv intern counting ptype (k + f + 1) TYPE_NOOP count d pos =
        object_loop islittle input dv intern counting ptype f m count d (pos + k + 1) := by
  intro k
  induction k with
  | zero =>
    intro f pos m count d _ hm hcount
    have hm0 : input.get? pos = some m := by simpa using hm
    rw [show 0 + f + 1 = Nat.succ f by omega]
    rw [object_loop]
    rw [if_pos ⟨hcount, Or.inr (by decide)⟩, if_pos rfl, readByte_ok _ hm0]
  | succ k ih =>
    intro f pos m count d hrun hm hcount
    have h0 : input.get? pos = some TYPE_NOOP := by simpa using hrun 0 (by omega)
    rw [show k + 1 + f + 1 = Nat.succ (k + f + 1) by omega]
    rw [object_loop]
    rw [if_pos ⟨hcount, Or.inr (by decide)⟩, if_pos rfl, readByte_ok _ h0]
    dsimp only
    rw [ih f (pos + 1) m count d
      (fun i hi => by
        have := hrun (i + 1) (by omega)
        rwa [show pos + (i + 1) = pos + 1 + i by omega] at this)
      (by rw [show pos + 1 + k = pos + (k + 1) by omega]; exact hm) hcount]
    rw [show pos + 1 + k + 1 = pos + (k + 1) + 1 by omega]

/-- Skipping a run of `k` NOOP bytes in the counted pairs loop. -/
theorem pairs_counted_loop_noop_skip (islittle : Bool) (input : List Nat)
    (dv : Option Nat → Nat → DecRes DValue) (intern : Bool) (ptype : Nat) :
    ∀ (k f pos m : Nat) (count : Int) (acc : List (List Nat × DValue)),
      (∀ i, i < k → input.get? (pos + i) = some TYPE_NOOP) →
      input.get? (pos + k) = some m → 0 < count →
      pairs_counted_loop islittle input dv intern ptype (k + f + 1) TYPE_NOOP count acc pos =
        pairs_counted_loop islittle input dv intern ptype f m count acc (pos + k + 1) := by
  intro k
  induction k with
  | zero =>
    intro f pos m count acc _ hm hcount
    have hm0 : input.get? pos = some m := by simpa using hm
    rw [show 0 + f + 1 = Nat.succ f by omega]
    rw [pairs_counted_loop]
    rw [if_pos hcount, if_pos rfl, readByte_ok _ hm0]
  | succ k ih =>
    intro f pos m count acc hrun hm hcount
    have h0 : input.get? pos = some TYPE_NOOP := by simpa using hrun 0 (by omega)
    rw [show k + 1 + f + 1 = Nat.succ (k + f + 1) by omega]
    rw [pairs_counted_loop]
    rw [if_pos hcount, if_pos rfl, readByte_ok _ h0]
    dsimp only
    rw [ih f (pos + 1) m count acc
      (fun i hi => by
        have := hrun (i + 1) (by omega)
        rwa [show pos + (i + 1) = pos + 1 + i by omega] at this)
      (by rw [show pos + 1 + k = pos + (k + 1) by omega]; exact hm) hcount]
    rw [show pos + 1 + k + 1 = pos + (k + 1) + 1 by omega]

/-- Skipping a run of `k` NOOP bytes in the unsized pairs loop. -/
theorem pairs_unsized_loop_noop_skip (islittle : Bool) (input : List Nat)
    (dv : Option Nat → Nat → DecRes DValue) (intern : Bool) (ptype : Nat) :
    ∀ (k f pos m : Nat) (acc : List (List Nat × DValue)),
      (∀ i, i < k → input.get? (pos + i) = some TYPE_NOOP) →
      input.get? (pos + k) = some m →
      pairs_unsized_loop islittle input dv intern ptype (k + f + 1) TYPE_NOOP acc pos =
        pairs_unsized_loop islittle input dv intern ptype f m acc (pos + k + 1) := by
  intro k
  induction k with
  | zero =>
    intro f pos m acc _ hm
    have hm0 : input.get? pos = some m := by simpa using hm
    rw [show 0 + f + 1 = Nat.succ f by omega]
    rw [pairs_unsized_loop]
    rw [if_neg (by decide), if_pos rfl, readByte_ok _ hm0]
  | succ k ih =>
    intro f pos m acc hrun hm
    have h0 : input.get? pos = some TYPE_NOOP := by simpa using hrun 0 (by omega)
    rw [show k + 1 + f + 1 = Nat.succ (k + f + 1) by omega]
    rw [pairs_unsized_loop]
    rw [if_neg (by decide), if_pos rfl, readByte_ok _ h0]
    dsimp only
    rw [ih f (pos + 1) m acc
      (fun i hi => by
        have := hrun (i + 1) (by omega)
        rwa [show pos + (i + 1) = pos + 1 + i by omega] at this)
      (by rw [show pos + 1 + k = pos + (k + 1) by omega]; exact hm)]
    rw [show pos + 1 + k + 1 = pos + (k + 1) + 1 by omega]

/-- A NOOP byte is not an integer marker, so using it as an object key
length marker fails with "Integer marker expected" without consuming
input. -/
theorem decode_object_key_noop (islittle : Bool) (input : List Nat) (intern : Bool)
    (pos : Nat) :
    decode_object_key islittle input intern TYPE_NOOP pos =
      (.error (.integerMarkerExpected pos), pos) := by
  unfold decode_object_key decode_int_non_negative
  dsimp only
  rw [show decode_int_by_marker islittle input TYPE_NOOP pos = none from by
    simp [decode_int_by_marker, TYPE_NOOP, TYPE_UINT8, TYPE_INT8, TYPE_UINT16, TYPE_INT16,
      TYPE_UINT32, TYPE_INT32, TYPE_UINT64, TYPE_INT64]]

/-- In the keys-only (no-data) object loop, a NOOP at a key position is
not skipped: the key decode fails and is re-raised as "Failed to decode
object key". -/
theorem object_nodata_loop_noop_error (islittle : Bool) (input : List Nat) (intern : Bool)
    (val : DValue) (f pos : Nat) (count : Int) (d : List (List Nat × DValue))
    (hcount : 0 < count) :
    object_nodata_loop islittle input intern val (f + 1) TYPE_NOOP count d pos =
      (.error (.failedObjectKey "sized, no data" pos), pos) := by
  rw [show f + 1 = Nat.succ f from rfl]
  rw [object_nodata_loop]
  rw [if_pos hcount, decode_object_key_noop]

/-- Same as `object_nodata_loop_noop_error` for the pairs-mode loop. -/
theorem pairs_nodata_loop_noop_error (islittle : Bool) (input : List Nat) (intern : Bool)
    (val : DValue) (f pos : Nat) (count : Int) (acc : List (List Nat × DValue))
    (hcount : 0 < count) :
    pairs_nodata_loop islittle input intern val (f + 1) TYPE_NOOP count acc pos =
      (.error (.failedObjectKey "sized, no data" pos), pos) := by
  rw [show f + 1 = Nat.succ f from rfl]
  rw [pairs_nodata_loop]
  rw [if_pos hcount, decode_object_key_noop]

/-- C3 (amended): in the counted element loops of arrays and of objects in
both mapping and pairs mode (and in the unsized pairs loop), a run of
NOOP markers at an element/key position is skipped by reading the next
marker, without decrementing the remaining count and without contributing
an element; but in the keys-only loops used for counted objects with a
no-data global type, a NOOP at a key position is NOT skipped — it is
consumed as a key length marker and decoding fails with "Failed to decode
object key". -/
theorem c3_noop_skip (islittle : Bool) (input : List Nat)
    (dv : Option Nat → Nat → DecRes DValue) (intern counting : Bool) (ptype : Nat)
    (val : DValue) (k f pos m : Nat) (count : Int) (acc : List DValue)
    (l d : List (List Nat × DValue))
    (hrun : ∀ i, i < k → input.get? (pos + i) = some TYPE_NOOP)
    (hm : input.get? (pos + k) = some m) (hcount : 0 < count) :
    (array_counted_loop input dv ptype (k + f + 1) TYPE_NOOP count acc pos =
       array_counted_loop input dv ptype f m count acc (pos + k + 1)) ∧
    (object_loop islittle input dv intern counting ptype (k + f + 1) TYPE_NOOP count d pos =
       object_loop islittle input dv intern counting ptype f m count d (pos + k + 1)) ∧
    (pairs_counted_loop islittle input dv intern ptype (k + f + 1) TYPE_NOOP count l pos =
       pairs_counted_loop islittle input dv intern ptype f m count l (pos + k + 1)) ∧
    (pairs_unsized_loop islittle input dv intern ptype (k + f + 1) TYPE_NOOP l pos =
       pairs_unsized_loop islittle input dv intern ptype f m l (pos + k + 1)) ∧
    (object_nodata_loop islittle input intern val (f + 1) TYPE_NOOP count d pos =
       (.error (.failedObjectKey "sized, no data" pos), pos)) ∧
    (pairs_nodata_loop islittle input intern val (f + 1) TYPE_NOOP count l pos =
       (.error (.failedObjectKey "sized, no data" pos), pos)) :=
  ⟨array_counted_loop_noop_skip input dv ptype k f pos m count acc hrun hm hcount,
   object_loop_noop_skip islittle input dv intern counting ptype k f pos m count d hrun hm hcount,
   pairs_counted_loop_noop_skip islittle input dv intern ptype k f pos m count l hrun hm hcount,
   pairs_unsized_loop_noop_skip islittle input dv intern ptype k f pos m l hrun hm,
   object_nodata_loop_noop_error islittle input intern val f pos count d hcount,
   pairs_nodata_loop_noop_error islittle input intern val f pos count l hcount⟩

/-- Closed witness for `c3_noop_skip`: two NOOP bytes before a `U` marker
in each loop, and the no-data loops failing on a NOOP key marker. -/
theorem c3_noop_skip_witness :
    (array_counted_loop [0x4E, 0x4E, 0x55] (fun _ q => (.error (.invalidMarker q), q))
       TYPE_NONE 6 TYPE_NOOP 1 [] 0 =
     array_counted_loop [0x4E, 0x4E, 0x55] (fun _ q => (.error (.invalidMarker q), q))
       TYPE_NONE 3 0x55 1 [] 3) ∧
    (object_loop false [0x4E, 0x4E, 0x55] (fun _ q => (.error (.invalidMarker q), q))
       false true TYPE_NONE 6 TYPE_NOOP 1 [] 0 =
     object_loop false [0x4E, 0x4E, 0x55] (fun _ q => (.error (.invalidMarker q), q))
       false true TYPE_NONE 3 0x55 1 [] 3) ∧
    (pairs_counted_loop false [0x4E, 0x4E, 0x55] (fun _ q => (.error (.invalidMarker q), q))
       false TYPE_NONE 6 TYPE_NOOP 1 [] 0 =
     pairs_counted_loop false [0x4E, 0x4E, 0x55] (fun _ q => (.error (.invalidMarker q), q))
       false TYPE_NONE 3 0x55 1 [] 3) ∧
    (pairs_unsized_loop false [0x4E, 0x4E, 0x55] (fun _ q => (.error (.invalidMarker q), q))
       false TYPE_NONE 6 TYPE_NOOP [] 0 =
     pairs_unsized_loop false [0x4E, 0x4E, 0x55] (fun _ q => (.error (.invalidMarker q), q))
       false TYPE_NONE 3 0x55 [] 3) ∧
    (object_nodata_loop false [0x4E, 0x4E, 0x55] false DValue.null 4 TYPE_NOOP 1 [] 0 =
       (.error (.failedObjectKey "sized, no data" 0), 0)) ∧
    (pairs_nodata_loop false [0x4E, 0x4E, 0x55] false DValue.null 4 TYPE_NOOP 1 [] 0 =
       (.error (.failedObjectKey "sized, no data" 0), 0)) :=
  c3_noop_skip false [0x4E, 0x4E, 0x55] (fun _ q => (.error (.invalidMarker q), q))
    false true TYPE_NONE DValue.null 2 3 0 0x55 1 [] [] []
    (fun i hi => by interval_cases i <;> rfl) rfl (by norm_num)

/-- Counterexample to C3 as stated: in a counted object with the no-data
global type `Z` (input `{ $Z #U 01 N U 01 a`), the NOOP at the key
position is not skipped; decoding fails with "Failed to decode object
key" at offset 7 instead of binding the key `a` to null. -/
theorem c3_counterexample :
    decode_value ⟨false, false, false, false, false⟩
      [0x7B, 0x24, 0x5A, 0x23, 0x55, 1, 0x4E, 0x55, 1, 0x61] 9 none 0 =
      (.error (.failedObjectKey "sized, no data" 7), 7) := rfl

/-- Overwriting the entries of key `a` leaves lookups of a different key
`k` unchanged. -/
theorem dictGet_overwrite (t : List (List Nat × DValue)) (a k : List Nat) (w : DValue)
    (hak : (a == k) = false) :
    dictGet (t.map (fun pr => if pr.1 == a then (a, w) else pr)) k = dictGet t k := by
  induction t with
  | nil => rfl
  | cons pr t ih =>
    unfold dictGet at ih ⊢
    simp only [List.map_cons, List.find?_cons]
    by_cases hpr : (pr.1 == a) = true
    · have h1 : (pr.1 == k) = false := by rw [eq_of_beq hpr]; exact hak
      simp only [if_pos hpr, hak, h1]
      exact ih
    · simp only [if_neg hpr]
      by_cases hk : (pr.1 == k) = true
      · simp only [hk]
      · have hkf : (pr.1 == k) = false := by simpa using hk
        simp only [hkf]
        exact ih

/-- Looking up key `a` after overwriting its entries with `(a, w)`:
`some w` exactly when the key occurred in the list. -/
theorem dictGet_overwrite_eq (t : List (List Nat × DValue)) (a : List Nat) (w : DValue) :
    dictGet (t.map (fun pr => if pr.1 == a then (a, w) else pr)) a =
      if t.any (fun pr => pr.1 == a) then some w else none := by
  induction t with
  | nil => rfl
  | cons pr t ih =>
    unfold dictGet at ih ⊢
    simp only [List.map_cons, List.any_cons, List.find?_cons]
    by_cases hpr : (pr.1 == a) = true
    · simp [if_pos hpr, hpr]
    · have hprf : (pr.1 == a) = false := by simpa using hpr
      simp only [hprf, Bool.false_or]
      simpa [hprf] using ih

/-- `PyDict_SetItem` then lookup: the set key reads back the new value,
any other key is unaffected. -/
theorem dictGet_dictSet (d : List (List Nat × DValue)) (a k : List Nat) (w : DValue) :
    dictGet (dictSet d a w) k = if a == k then some w else dictGet d k := by
  unfold dictSet
  by_cases hany : (d.any (fun pr => pr.1 == a)) = true
  · rw [if_pos hany]
    by_cases hak : (a == k) = true
    · have he : a = k := eq_of_beq hak
      subst he
      rw [dictGet_overwrite_eq, if_pos hany, if_pos hak]
    · have hakf : (a == k) = false := by simpa using hak
      rw [dictGet_overwrite d a k w hakf, if_neg hak]
  · rw [if_neg hany]
    unfold dictGet
    rw [List.find?_append]
    by_cases hak : (a == k) = true
    · have he : a = k := eq_of_beq hak
      subst he
      have hnone : List.find? (fun pr => pr.1 == a) d = none := by
        rw [List.find?_eq_none]
        intro x hx hpx
        exact hany (List.any_eq_true.mpr ⟨x, hx, hpx⟩)
      simp only [hnone, List.find?_cons, List.find?_nil, hak, Option.none_or, if_pos hak]
      rfl
    · have hakf : (a == k) = false := by simpa using hak
      simp only [List.find?_cons, List.find?_nil, hakf, Option.or_none, if_neg hak]
      simp

/-- Folding a pair list into a dict with `dictSet`: lookups see the last
binding of the pair list, falling back to the starting dict. -/
theorem dictGet_foldl (l : List (List Nat × DValue)) (k : List Nat) :
    ∀ d, dictGet (l.foldl (fun d kv => dictSet d kv.1 kv.2) d) k =
      (match lastBind l k with
       | some v => some v
       | none => dictGet d k) := by
  induction l with
  | nil => intro d; rfl
  | cons kv t ih =>
    intro d
    rw [List.foldl_cons, ih (dictSet d kv.1 kv.2), dictGet_dictSet]
    show _ = (match lastBind ((kv.1, kv.2) :: t) k with
              | some v => some v
              | none => dictGet d k)
    rw [lastBind]
    cases lastBind t k with
    | some v => rfl
    | none =>
      dsimp only
      by_cases hk : (kv.1 == k) = true
      · rw [if_pos hk, if_pos hk]
      · rw [if_neg hk, if_neg hk]

/-- In `dictOfPairs` form: the dict built from a pair list binds each key
to the last value paired with it. -/
theorem dictGet_dictOfPairs (l : List (List Nat × DValue)) (k : List Nat) :
    dictGet (dictOfPairs l) k = lastBind l k := by
  unfold dictOfPairs
  rw [dictGet_foldl]
  cases h : lastBind l k with
  | some v => rfl
  | none => rfl

/-- An uncounted container header always carries the placeholder count 1
(the `count = 1` assignment in the `TYPE_NONE` path of
`_get_container_params`). -/
theorem get_container_params_noND_not_counting (islittle : Bool) (input : List Nat)
    (in_mapping : Bool) (pos p : Nat) (params : ContainerParams)
    (h : get_container_params_noND islittle input in_mapping pos = (.ok params, p))
    (hc : params.counting = false) : params.count = 1 := by
  unfold get_container_params_noND container_count_plain container_count_tail at h
  repeat' split at h
  all_goals simp_all
  all_goals (obtain ⟨h1, h2⟩ := h; rw [← h1] at hc ⊢; try simp_all)

/-- Inversion for a successful one-byte read: the byte is the list entry at
`pos` and the position advances by one (independently of the item text,
which only flows into error values). -/
theorem readByte_ok_inv {input : List Nat} {s : String} {pos b p : Nat}
    (h : readByte input s pos = (.ok b, p)) :
    input.get? pos = some b ∧ p = pos + 1 := by
  by_cases hlt : pos < input.length
  · have hg : input.get? pos = some (input.get ⟨pos, hlt⟩) := List.get?_eq_get hlt
    rw [readByte_ok s hg] at h
    obtain ⟨h1, h2⟩ := Prod.mk.injEq .. |>.mp h
    obtain rfl : input.get ⟨pos, hlt⟩ = b := by
      simpa using h1
    exact ⟨hg, h2.symm⟩
  · unfold readByte readBytes at h
    rw [if_neg (by omega), if_neg hlt] at h
    simp at h

/-- Lockstep between the pairs-mode and mapping-mode keys-only loops: when
the pairs loop succeeds with list `L`, `L` extends the accumulator and the
mapping loop folds the new pairs into any starting dict with
`PyDict_SetItem`, ending at the same position. -/
theorem pairs_nodata_rel (islittle : Bool) (input : List Nat) (intern : Bool) (val : DValue) :
    ∀ (f marker : Nat) (count : Int) (acc L : List (List Nat × DValue)) (pos q : Nat),
      pairs_nodata_loop islittle input intern val f marker count acc pos = (.ok L, q) →
      ∃ t, L = acc ++ t ∧ ∀ d,
        object_nodata_loop islittle input intern val f marker count d pos =
          (.ok (t.foldl (fun d kv => dictSet d kv.1 kv.2) d), q) := by
  intro f
  induction f with
  | zero =>
    intro marker count acc L pos q h
    rw [pairs_nodata_loop] at h
    exact absurd h (by simp)
  | succ f ih =>
    intro marker count acc L pos q h
    rw [pairs_nodata_loop] at h
    by_cases hcount : (0 : Int) < count
    · rw [if_pos hcount] at h
      cases hkey : decode_object_key islittle input intern marker pos with
      | mk r p2 =>
      rw [hkey] at h
      cases r with
      | error e => simp at h
      | ok key =>
        dsimp only at h
        by_cases h2 : (0 : Int) < count - 1
        · rw [if_pos h2] at h
          cases hrb : readByte input "object key length" p2 with
          | mk rr p3 =>
          rw [hrb] at h
          cases rr with
          | error e => simp at h
          | ok m2 =>
            dsimp only at h
            obtain ⟨t2, hL, hobj⟩ := ih m2 (count - 1) (acc ++ [(key, val)]) L p3 q h
            refine ⟨(key, val) :: t2, by simpa [List.append_assoc] using hL, fun d => ?_⟩
            rw [object_nodata_loop, if_pos hcount, hkey]
            dsimp only
            rw [if_pos h2, hrb]
            dsimp only
            rw [hobj (dictSet d key val)]
            rfl
        · rw [if_neg h2] at h
          obtain ⟨t2, hL, hobj⟩ := ih marker (count - 1) (acc ++ [(key, val)]) L p2 q h
          refine ⟨(key, val) :: t2, by simpa [List.append_assoc] using hL, fun d => ?_⟩
          rw [object_nodata_loop, if_pos hcount, hkey]
          dsimp only
          rw [if_neg h2, hobj (dictSet d key val)]
          rfl
    · rw [if_neg hcount] at h
      obtain ⟨h1, h2⟩ := Prod.mk.injEq .. |>.mp h
      obtain rfl : acc = L := by simpa using h1
      refine ⟨[], by simp, fun d => ?_⟩
      rw [object_nodata_loop, if_neg hcount, h2]
      rfl

/-- Lockstep between the counted pairs loop and the mapping loop (counting
mode): a successful pairs run extends the accumulator, and the mapping
loop folds exactly the new pairs into any starting dict. -/
theorem pairs_counted_rel (islittle : Bool) (input : List Nat)
    (dv : Option Nat → Nat → DecRes DValue) (intern : Bool) (ptype : Nat) :
    ∀ (f marker : Nat) (count : Int) (acc L : List (List Nat × DValue)) (pos q : Nat),
      pairs_counted_loop islittle input dv intern ptype f marker count acc pos = (.ok L, q) →
      ∃ t, L = acc ++ t ∧ ∀ d,
        object_loop islittle input dv intern true ptype f marker count d pos =
          (.ok (t.foldl (fun d kv => dictSet d kv.1 kv.2) d), q) := by
  intro f
  induction f with
  | zero =>
    intro marker count acc L pos q h
    rw [pairs_counted_loop] at h
    exact absurd h (by simp)
  | succ f ih =>
    intro marker count acc L pos q h
    rw [pairs_counted_loop] at h
    by_cases hcount : (0 : Int) < count
    · rw [if_pos hcount] at h
      by_cases hnoop : marker = TYPE_NOOP
      · rw [if_pos hnoop] at h
        cases hrb : readByte input "object key length (sized, after no-op)" pos with
        | mk rr p2 =>
        rw [hrb] at h
        cases rr with
        | error e => simp at h
        | ok m2 =>
          dsimp only at h
          obtain ⟨t2, hL, hobj⟩ := ih m2 count acc L p2 q h
          refine ⟨t2, hL, fun d => ?_⟩
          obtain ⟨hg, rfl⟩ := readByte_ok_inv hrb
          rw [object_loop, if_pos ⟨hcount, Or.inl rfl⟩, if_pos hnoop, readByte_ok _ hg]
          exact hobj d
      · rw [if_neg hnoop] at h
        cases hkey : decode_object_key islittle input intern marker pos with
        | mk r p2 =>
        rw [hkey] at h
        cases r with
        | error e => simp at h
        | ok key =>
          dsimp only at h
          cases hdv : dv (if ptype = TYPE_NONE then none else some ptype) p2 with
          | mk rv p3 =>
          rw [hdv] at h
          cases rv with
          | error e => simp at h
          | ok v =>
            dsimp only at h
            by_cases h2 : (0 : Int) < count - 1
            · rw [if_pos h2] at h
              cases hrb : readByte input "object key length (sized)" p3 with
              | mk rr p4 =>
              rw [hrb] at h
              cases rr with
              | error e => simp at h
              | ok m2 =>
                dsimp only at h
                obtain ⟨t2, hL, hobj⟩ := ih m2 (count - 1) (acc ++ [(key, v)]) L p4 q h
                refine ⟨(key, v) :: t2, by simpa [List.append_assoc] using hL, fun d => ?_⟩
                obtain ⟨hg, rfl⟩ := readByte_ok_inv hrb
                rw [object_loop, if_pos ⟨hcount, Or.inl rfl⟩, if_neg hnoop, hkey]
                dsimp only
                rw [hdv]
                dsimp only
                rw [show (if (true : Bool) = true then count - 1 else count) = count - 1 from rfl]
                rw [if_pos h2, readByte_ok _ hg]
                dsimp only
                rw [hobj (dictSet d key v)]
                rfl
            · rw [if_neg h2] at h
              obtain ⟨t2, hL, hobj⟩ := ih marker (count - 1) (acc ++ [(key, v)]) L p3 q h
              refine ⟨(key, v) :: t2, by simpa [List.append_assoc] using hL, fun d => ?_⟩
              rw [object_loop, if_pos ⟨hcount, Or.inl rfl⟩, if_neg hnoop, hkey]
              dsimp only
              rw [hdv]
              dsimp only
              rw [show (if (true : Bool) = true then count - 1 else count) = count - 1 from rfl]
              rw [if_neg h2, hobj (dictSet d key v)]
              rfl
    · rw [if_neg hcount] at h
      obtain ⟨h1, h2⟩ := Prod.mk.injEq .. |>.mp h
      obtain rfl : acc = L := by simpa using h1
      refine ⟨[], by simp, fun d => ?_⟩
      rw [object_loop, if_neg (by simp [hcount]), h2]
      rfl

/-- Lockstep between the unsized pairs loop and the mapping loop in
non-counting mode (with the constant positive placeholder count). -/
theorem pairs_unsized_rel (islittle : Bool) (input : List Nat)
    (dv : Option Nat → Nat → DecRes DValue) (intern : Bool) (ptype : Nat) :
    ∀ (f marker : Nat) (c : Int) (acc L : List (List Nat × DValue)) (pos q : Nat),
      0 < c →
      pairs_unsized_loop islittle input dv intern ptype f marker acc pos = (.ok L, q) →
      ∃ t, L = acc ++ t ∧ ∀ d,
        object_loop islittle input dv intern false ptype f marker c d pos =
          (.ok (t.foldl (fun d kv => dictSet d kv.1 kv.2) d), q) := by
  intro f
  induction f with
  | zero =>
    intro marker c acc L pos q hc h
    rw [pairs_unsized_loop] at h
    exact absurd h (by simp)
  | succ f ih =>
    intro marker c acc L pos q hc h
    rw [pairs_unsized_loop] at h
    by_cases hend : marker = OBJECT_END
    · rw [if_pos hend] at h
      obtain ⟨h1, h2⟩ := Prod.mk.injEq .. |>.mp h
      obtain rfl : acc = L := by simpa using h1
      refine ⟨[], by simp, fun d => ?_⟩
      rw [object_loop, if_neg (by simp [hend]), h2]
      rfl
    · rw [if_neg hend] at h
      by_cases hnoop : marker = TYPE_NOOP
      · rw [if_pos hnoop] at h
        cases hrb : readByte input "object key length (after no-op)" pos with
        | mk rr p2 =>
        rw [hrb] at h
        cases rr with
        | error e => simp at h
        | ok m2 =>
          dsimp only at h
          obtain ⟨t2, hL, hobj⟩ := ih m2 c acc L p2 q hc h
          refine ⟨t2, hL, fun d => ?_⟩
          obtain ⟨hg, rfl⟩ := readByte_ok_inv hrb
          rw [object_loop, if_pos ⟨hc, Or.inr hend⟩, if_pos hnoop, readByte_ok _ hg]
          exact hobj d
      · rw [if_neg hnoop] at h
        cases hkey : decode_object_key islittle input intern marker pos with
        | mk r p2 =>
        rw [hkey] at h
        cases r with
        | error e => simp at h
        | ok key =>
          dsimp only at h
          cases hdv : dv (if ptype = TYPE_NONE then none else some ptype) p2 with
          | mk rv p3 =>
          rw [hdv] at h
          cases rv with
          | error e => simp at h
          | ok v =>
            dsimp only at h
            cases hrb : readByte input "object key length" p3 with
            | mk rr p4 =>
            rw [hrb] at h
            cases rr with
            | error e => simp at h
            | ok m2 =>
              dsimp only at h
              obtain ⟨t2, hL, hobj⟩ := ih m2 c (acc ++ [(key, v)]) L p4 q hc h
              refine ⟨(key, v) :: t2, by simpa [List.append_assoc] using hL, fun d => ?_⟩
              rw [object_loop, if_pos ⟨hc, Or.inr hend⟩, if_neg hnoop, hkey]
              dsimp only
              rw [hdv]
              dsimp only
              rw [show (if (false : Bool) = true then c - 1 else c) = c from rfl]
              rw [if_pos hc, hrb]
              dsimp only
              rw [hobj (dictSet d key v)]
              rfl

/-- C7: for every decoded object, the pairs-mode list preserves every
(key, value) pair in decode order (it is the list handed to the hook),
and default mapping-mode decoding of the same bytes yields the dict
obtained by `PyDict_SetItem`-folding exactly that pair list — so each key
is bound to the last value decoded for it, as the lookup equation states. -/
theorem c7_duplicate_keys (prefs : DecoderPrefs) (input : List Nat)
    (dv : Option Nat → Nat → DecRes DValue) (fuel pos q : Nat)
    (L : List (List Nat × DValue))
    (hhook : prefs.object_hook = false)
    (hpairs : decode_object_with_pairs_hook prefs input dv fuel pos = (.ok (.pairs L), q)) :
    decode_object prefs input dv fuel pos = (.ok (.map (dictOfPairs L)), q) ∧
    ∀ k, dictGet (dictOfPairs L) k = lastBind L k := by
  refine ⟨?_, fun k => dictGet_dictOfPairs L k⟩
  unfold decode_object_with_pairs_hook at hpairs
  unfold decode_object
  cases hh : get_container_params_noND prefs.islittle input true pos with
  | mk r p =>
  rw [hh] at hpairs
  cases r with
  | error e => simp at hpairs
  | ok params =>
    dsimp only at hpairs ⊢
    by_cases hcnt : params.counting = true
    · by_cases hnod : is_no_data_type params.type = true
      · rw [if_pos hcnt, if_pos hnod] at hpairs
        rw [if_pos ⟨hcnt, hnod⟩]
        cases hloop : pairs_nodata_loop prefs.islittle input prefs.intern_object_keys
            (no_data_value params.type) fuel params.marker params.count [] p with
        | mk rl p2 =>
        rw [hloop] at hpairs
        cases rl with
        | error e => simp at hpairs
        | ok l0 =>
          dsimp only at hpairs
          have hl : l0 = L ∧ p2 = q := by
            simpa using hpairs
          obtain ⟨rfl, rfl⟩ := hl
          obtain ⟨t, hLt, hobj⟩ := pairs_nodata_rel prefs.islittle input
            prefs.intern_object_keys (no_data_value params.type) fuel params.marker
            params.count [] l0 p p2 hloop
          obtain rfl : l0 = t := by simpa using hLt
          rw [hobj []]
          rw [hhook]
          simp [dictOfPairs]
      · have hnodf : is_no_data_type params.type = false := by simpa using hnod
        rw [if_pos hcnt, if_neg hnod] at hpairs
        rw [if_neg (by simp [hnodf])]
        cases hloop : pairs_counted_loop prefs.islittle input dv prefs.intern_object_keys
            params.type fuel params.marker params.count [] p with
        | mk rl p2 =>
        rw [hloop] at hpairs
        cases rl with
        | error e => simp at hpairs
        | ok l0 =>
          dsimp only at hpairs
          have hl : l0 = L ∧ p2 = q := by
            simpa using hpairs
          obtain ⟨rfl, rfl⟩ := hl
          obtain ⟨t, hLt, hobj⟩ := pairs_counted_rel prefs.islittle input dv
            prefs.intern_object_keys params.type fuel params.marker params.count [] l0 p p2
            hloop
          obtain rfl : l0 = t := by simpa using hLt
          rw [hcnt, hobj []]
          rw [hhook]
          simp [dictOfPairs]
    · have hcntf : params.counting = false := by simpa using hcnt
      rw [if_neg hcnt] at hpairs
      rw [if_neg (by simp [hcntf])]
      cases hloop : pairs_unsized_loop prefs.islittle input dv prefs.intern_object_keys
          params.type fuel params.marker [] p with
      | mk rl p2 =>
      rw [hloop] at hpairs
      cases rl with
      | error e => simp at hpairs
      | ok l0 =>
        dsimp only at hpairs
        have hl : l0 = L ∧ p2 = q := by
          simpa using hpairs
        obtain ⟨rfl, rfl⟩ := hl
        have hone : params.count = 1 :=
          get_container_params_noND_not_counting prefs.islittle input true pos p params hh hcntf
        obtain ⟨t, hLt, hobj⟩ := pairs_unsized_rel prefs.islittle input dv
          prefs.intern_object_keys params.type fuel params.marker params.count [] l0 p p2
          (by rw [hone]; norm_num) hloop
        obtain rfl : l0 = t := by simpa using hLt
        rw [hcntf, hobj []]
        rw [hhook]
        simp [dictOfPairs]

/-- Closed witness for `c7_duplicate_keys`: the object body
`U 01 a U 02 U 01 a U 05 }` (key "a" bound twice).  The pairs list keeps
both bindings in order; mapping mode folds them so "a" reads back 5. -/
theorem c7_duplicate_keys_witness :
    decode_object ⟨false, true, false, false, false⟩
      [0x55, 1, 0x61, 0x55, 2, 0x55, 1, 0x61, 0x55, 5, 0x7D]
      (decode_value ⟨false, true, false, false, false⟩
        [0x55, 1, 0x61, 0x55, 2, 0x55, 1, 0x61, 0x55, 5, 0x7D] 5) 7 0 =
      (.ok (.map (dictOfPairs [([0x61], .int 2), ([0x61], .int 5)])), 11) ∧
    dictGet (dictOfPairs [([0x61], .int 2), ([0x61], .int 5)]) [0x61] =
      lastBind [([0x61], .int 2), ([0x61], .int 5)] [0x61] :=
  ⟨(c7_duplicate_keys ⟨false, true, false, false, false⟩
      [0x55, 1, 0x61, 0x55, 2, 0x55, 1, 0x61, 0x55, 5, 0x7D]
      (decode_value ⟨false, true, false, false, false⟩
        [0x55, 1, 0x61, 0x55, 2, 0x55, 1, 0x61, 0x55, 5, 0x7D] 5) 7 0 11
      [([0x61], .int 2), ([0x61], .int 5)] rfl rfl).1,
   (c7_duplicate_keys ⟨false, true, false, false, false⟩
      [0x55, 1, 0x61, 0x55, 2, 0x55, 1, 0x61, 0x55, 5, 0x7D]
      (decode_value ⟨false, true, false, false, false⟩
        [0x55, 1, 0x61, 0x55, 2, 0x55, 1, 0x61, 0x55, 5, 0x7D] 5) 7 0 11
      [([0x61], .int 2), ([0x61], .int 5)] rfl rfl).2 [0x61]⟩
